import Mathlib

/-!
# Verification of the BattleShipGame core

Shallow embedding of the BattleShipGame TypeScript sources:

* `src/models/types.tsx` — the data model (cells, ships, boards, game state);
* `src/contexts/GameContext.tsx` — attack resolution (`handleAttack`) and the
  turn scheduler (`advanceTurn`); the file contains three revisions of the
  provider separated by document markers, embedded here as the `V1`, `V2`
  and `V3` variants, in the order in which they appear in the file;
* `src/utils/useAiAttackLogic.tsx` — the AI targeting strategies
  (`getEasyAttack`, `getNormalAttack`, `getHardAttack`,
  `getAiAttackCoordinate`);
* `src/lib/boardUtils.tsx` — placement validation (`isValidPlacement`) and
  the rejection-sampling placement generator (`placeShipRandomly`).

JavaScript numbers used as coordinates are modelled as `Int` (neighbour
computations go to `-1`); `Math.random()`-driven choices are modelled by an
explicit index / draw-stream parameter; `undefined` results are modelled as
`Option`.
-/

set_option maxHeartbeats 1000000
set_option synthInstance.maxHeartbeats 200000

/-- Cell status from `src/models/types.tsx`:
`"empty" | "ship" | "hit" | "miss" | "sunk"`. -/
inductive CellStatus where
  | empty
  | ship
  | hit
  | miss
  | sunk
deriving DecidableEq, Repr

/-- Coordinate from `src/models/types.tsx`: an `{x, y}` pair of JS numbers. -/
structure Coordinate where
  x : Int
  y : Int
deriving DecidableEq, Repr

/-- A cell of the grid (`Cell` in `src/models/types.tsx`); keeps the
`status` and optional `shipId` back-reference (the `x`/`y` fields of the
source duplicate the position in the grid and are dropped). -/
structure Cell where
  status : CellStatus := .empty
  shipId : Option String := none
deriving DecidableEq, Repr

instance : Inhabited Cell := ⟨{}⟩

/-- Orientation from `src/models/types.tsx` (`"horizontal" | "vertical"`;
named `ShipOrientation` here because Mathlib already uses `Orientation`). -/
inductive ShipOrientation where
  | horizontal
  | vertical
deriving DecidableEq, Repr

/-- `ShipDefinition` from `src/models/types.tsx`. -/
structure ShipDefinition where
  id : String
  name : String
  size : Nat
deriving DecidableEq, Repr

/-- `PlacedShip` from `src/models/types.tsx`. -/
structure PlacedShip where
  id : String
  definition : ShipDefinition
  start : Coordinate
  orientation : ShipOrientation
  hits : List Coordinate
  isSunk : Bool
deriving DecidableEq, Repr

/-- The attack record stored in a board's `attackedCells` map
(values `"hit" | "miss"`). -/
inductive AttackMark where
  | hit
  | miss
deriving DecidableEq, Repr

/-- `PlayerBoard` as used by `GameContext.tsx`: a cell grid, the placed
ships, and the `attackedCells` record keyed by `"x,y"` (modelled as an
association list keyed by the coordinate, which the string key determines
uniquely). -/
structure PlayerBoard where
  playerId : Int
  cells : List (List Cell)
  placedShips : List PlacedShip
  attackedCells : List (Coordinate × AttackMark)
deriving DecidableEq, Repr

/-- `PlayerType` from `src/models/types.tsx`. -/
inductive PlayerType where
  | human
  | ai
  | none
deriving DecidableEq, Repr

/-- `AIDifficulty` from `src/models/types.tsx`. -/
inductive AIDifficulty where
  | easy
  | normal
  | hard
deriving DecidableEq, Repr

/-- `PlayerSettings` from `src/models/types.tsx`. -/
structure PlayerSettings where
  id : Int
  name : String
  type : PlayerType
  difficulty : Option AIDifficulty := Option.none
deriving DecidableEq, Repr

/-- `GamePhase` from `src/models/types.tsx`. -/
inductive GamePhase where
  | selectPlayers
  | shipPlacement
  | inGame
  | gameOver
deriving DecidableEq, Repr

/-- `GameState` from `src/models/types.tsx` (the fields used by the
embedded operations); `playerBoards` is the `playerId → PlayerBoard` map,
modelled as an association list accessed only through lookup. -/
structure GameState where
  players : List PlayerSettings
  playerBoards : List (Int × PlayerBoard)
  phase : GamePhase
  currentPlayerTurnId : Int
  winnerId : Option Int
deriving DecidableEq, Repr

/-- `ALL_SHIPS` from `src/models/types.tsx`. -/
def ALL_SHIPS : List ShipDefinition :=
  [ { id := "carrier-0", name := "carrier", size := 5 },
    { id := "battleship-0", name := "battleship", size := 4 },
    { id := "cruiser-0", name := "cruiser", size := 3 },
    { id := "submarine-0", name := "submarine", size := 3 },
    { id := "destroyer-0", name := "destroyer", size := 2 } ]

/-! ## Grid access -/

/-- Read `cells[y][x]`; out-of-range access yields the default cell (the
sources always bounds-check before reading cells that can be out of
range). -/
def cellAt (cells : List (List Cell)) (y x : Int) : Cell :=
  if 0 ≤ y ∧ 0 ≤ x then ((cells[y.toNat]?.getD [])[x.toNat]?.getD default)
  else default

/-- Write the status of `cells[y][x]` (functional update; out-of-range
writes leave the grid unchanged). -/
def setStatus (cells : List (List Cell)) (y x : Int) (s : CellStatus) :
    List (List Cell) :=
  if 0 ≤ y ∧ 0 ≤ x then
    match cells[y.toNat]? with
    | Option.none => cells
    | Option.some row =>
        cells.set y.toNat
          (row.set x.toNat { row[x.toNat]?.getD default with status := s })
  else cells

/-- The grid really is an `N × N` grid (`N = 10` everywhere in the
sources). -/
def gridWF (cells : List (List Cell)) : Prop :=
  cells.length = 10 ∧ ∀ row ∈ cells, row.length = 10

instance : DecidablePred gridWF := fun cells => by
  unfold gridWF; infer_instance

/-- `isCoordinateInBounds` from `src/lib/boardUtils.tsx`. -/
def isCoordinateInBounds (coord : Coordinate) : Bool :=
  0 ≤ coord.x && coord.x < 10 && 0 ≤ coord.y && coord.y < 10

/-! ### Grid get/set lemmas -/

theorem setStatus_grid_length (cells : List (List Cell)) (y x : Int)
    (s : CellStatus) : (setStatus cells y x s).length = cells.length := by
  unfold setStatus
  split
  · split <;> simp
  · rfl

theorem cellAt_setStatus_same (cells : List (List Cell)) (y x : Int)
    (s : CellStatus) (hwf : gridWF cells) (hy0 : 0 ≤ y) (hy : y < 10)
    (hx0 : 0 ≤ x) (hx : x < 10) :
    cellAt (setStatus cells y x s) y x = { cellAt cells y x with status := s } := by
  obtain ⟨hlen, hrows⟩ := hwf
  have hyn : y.toNat < cells.length := by rw [hlen]; omega
  have hrow : cells[y.toNat]? = Option.some cells[y.toNat] :=
    List.getElem?_eq_getElem hyn
  have hrowlen : (cells[y.toNat]).length = 10 :=
    hrows _ (List.getElem_mem hyn)
  have hxn : x.toNat < (cells[y.toNat]).length := by rw [hrowlen]; omega
  unfold setStatus cellAt
  rw [if_pos ⟨hy0, hx0⟩, if_pos ⟨hy0, hx0⟩, if_pos ⟨hy0, hx0⟩, hrow]
  rw [List.getElem?_set_self (by simpa using hyn)]
  simp only [Option.getD_some]
  rw [List.getElem?_set_self (by simpa using hxn)]
  simp only [Option.getD_some]

theorem cellAt_setStatus_other (cells : List (List Cell)) (y x y' x' : Int)
    (s : CellStatus) (hne : ¬(y' = y ∧ x' = x)) :
    cellAt (setStatus cells y x s) y' x' = cellAt cells y' x' := by
  unfold setStatus
  split
  · rename_i hpos
    split
    · rfl
    · rename_i row hrow
      unfold cellAt
      split
      · rename_i hpos'
        by_cases hyy : y'.toNat = y.toNat
        · have hyy' : y' = y := by omega
          have hxx : ¬ x' = x := fun hx => hne ⟨hyy', hx⟩
          have hxxn : x.toNat ≠ x'.toNat := by omega
          rw [hyy]
          have hylt : y.toNat < cells.length := by
            by_contra hcon
            have : cells[y.toNat]? = Option.none := by
              rw [List.getElem?_eq_none_iff]; omega
            rw [this] at hrow; exact Option.noConfusion hrow
          rw [List.getElem?_set_self (by simpa using hylt)]
          simp only [Option.getD_some]
          rw [List.getElem?_set_ne hxxn, hrow]
          simp only [Option.getD_some]
        · have : y.toNat ≠ y'.toNat := fun h => hyy h.symm
          rw [List.getElem?_set_ne this]
      · rfl
  · rfl

/-- Setting a status preserves the grid shape. -/
theorem gridWF_setStatus (cells : List (List Cell)) (y x : Int)
    (s : CellStatus) (hwf : gridWF cells) : gridWF (setStatus cells y x s) := by
  obtain ⟨hlen, hrows⟩ := hwf
  constructor
  · rw [setStatus_grid_length]; exact hlen
  · intro row hrow
    unfold setStatus at hrow
    split at hrow
    · split at hrow
      · exact hrows _ hrow
      · rename_i r hr
        rcases List.mem_or_eq_of_mem_set hrow with h | h
        · exact hrows _ h
        · subst h
          rw [List.length_set]
          exact hrows r (List.getElem?_mem hr)
    · exact hrows _ hrow

/-! ## Board map and attack-record access -/

/-- Lookup in the `playerId → PlayerBoard` object. -/
def lookupBoard (boards : List (Int × PlayerBoard)) (pid : Int) :
    Option PlayerBoard :=
  (boards.find? (fun e => decide (e.1 = pid))).map (·.2)

/-- `newPlayerBoards[pid] = b` (key update of the object; order of entries
is irrelevant because the map is only read through `lookupBoard`). -/
def setBoard (boards : List (Int × PlayerBoard)) (pid : Int)
    (b : PlayerBoard) : List (Int × PlayerBoard) :=
  (pid, b) :: boards.filter (fun e => decide (e.1 ≠ pid))

/-- Lookup in an `attackedCells` object (keys `"x,y"` are in bijection with
coordinates). -/
def lookupAttacked (m : List (Coordinate × AttackMark)) (c : Coordinate) :
    Option AttackMark :=
  (m.find? (fun e => decide (e.1 = c))).map (·.2)

theorem lookupBoard_setBoard_same (boards : List (Int × PlayerBoard))
    (pid : Int) (b : PlayerBoard) :
    lookupBoard (setBoard boards pid b) pid = Option.some b := by
  simp [lookupBoard, setBoard, List.find?]

theorem lookupBoard_setBoard_other (boards : List (Int × PlayerBoard))
    (pid q : Int) (b : PlayerBoard) (h : q ≠ pid) :
    lookupBoard (setBoard boards pid b) q = lookupBoard boards q := by
  simp only [lookupBoard, setBoard]
  have hhead : (decide ((pid, b).1 = q)) = false := by
    simp; omega
  rw [List.find?]
  simp only [hhead]
  congr 1
  induction boards with
  | nil => rfl
  | cons e rest ih =>
    by_cases he : e.1 = pid
    · have : (decide (e.1 ≠ pid)) = false := by simp [he]
      rw [List.filter_cons, this]
      simp only [Bool.false_eq_true, if_false]
      rw [List.find?]
      have : (decide (e.1 = q)) = false := by simp [he]; omega
      rw [this]
      exact ih
    · have : (decide (e.1 ≠ pid)) = true := by simp [he]
      rw [List.filter_cons, this]
      simp only [if_true]
      rw [List.find?, List.find?]
      cases hq : decide (e.1 = q) with
      | true => rfl
      | false => exact ih

/-! ## Ship geometry -/

/-- The `i`-th cell of a ship: `x + i` when horizontal, `y + i` when
vertical (the formula used by every loop over a ship's cells in the
sources). -/
def shipCoord (start : Coordinate) (o : ShipOrientation) (i : Nat) :
    Coordinate :=
  match o with
  | .horizontal => ⟨start.x + i, start.y⟩
  | .vertical => ⟨start.x, start.y + i⟩

/-- All coordinates occupied by a placed ship. -/
def occupiedCoords (s : PlacedShip) : List Coordinate :=
  (List.range s.definition.size).map (shipCoord s.start s.orientation)

theorem occupiedCoords_length (s : PlacedShip) :
    (occupiedCoords s).length = s.definition.size := by
  simp [occupiedCoords]

theorem shipCoord_injective (start : Coordinate) (o : ShipOrientation) :
    Function.Injective (shipCoord start o) := by
  intro i j h
  cases o <;> simp only [shipCoord, Coordinate.mk.injEq] at h <;> omega

theorem occupiedCoords_nodup (s : PlacedShip) : (occupiedCoords s).Nodup :=
  (List.nodup_range _).map (shipCoord_injective s.start s.orientation)

/-- `checkAllShipsSunk` from `GameContext.tsx`:
`playerBoard.placedShips.every(ship => ship.isSunk)`. -/
def checkAllShipsSunk (b : PlayerBoard) : Bool :=
  b.placedShips.all (·.isSunk)

/-- Spec-side formulation: the board still has a ship whose `isSunk` flag
is off. -/
def hasUnsunkShip (b : PlayerBoard) : Bool :=
  b.placedShips.any (fun s => !s.isSunk)

theorem hasUnsunkShip_eq_not_checkAllShipsSunk (b : PlayerBoard) :
    hasUnsunkShip b = !(checkAllShipsSunk b) := by
  unfold hasUnsunkShip checkAllShipsSunk
  induction b.placedShips with
  | nil => rfl
  | cons s rest ih => simp [List.any_cons, List.all_cons, ih]

/-! ## `handleAttack`, first variant (`GameContext.tsx` lines 61–163) -/

/-- The result record returned by the first `handleAttack` variant:
`{ hit, sunkShipId, isGameOver }`. -/
structure AttackResultV1 where
  hit : Bool
  sunkShipId : Option String
  isGameOver : Bool
deriving DecidableEq, Repr

instance : Inhabited AttackResultV1 := ⟨⟨false, Option.none, false⟩⟩

def markToStatus : AttackMark → CellStatus
  | .hit => .hit
  | .miss => .miss

/-- `findIndex` on the ship id followed by the in-place hit/sunk update
(lines 105–110): the first ship whose `id` matches gets `coord` appended to
`hits` and `isSunk` recomputed as `hits.length === definition.size`;
returns the rewritten list together with the updated ship, if any. -/
def hitShipUpdate (sid : String) (coord : Coordinate) :
    List PlacedShip → List PlacedShip × Option PlacedShip
  | [] => ([], Option.none)
  | s :: rest =>
    if s.id = sid then
      let s' : PlacedShip :=
        { s with hits := s.hits ++ [coord],
                 isSunk := decide ((s.hits ++ [coord]).length = s.definition.size) }
      (s' :: rest, Option.some s')
    else
      let r := hitShipUpdate sid coord rest
      (s :: r.1, r.2)

/-- Lines 117–122: set every cell of the sunk ship to `'sunk'`. -/
def sinkShipCells (cells : List (List Cell)) (s : PlacedShip) :
    List (List Cell) :=
  (List.range s.definition.size).foldl
    (fun g i =>
      let q := shipCoord s.start s.orientation i
      setStatus g q.y q.x .sunk)
    cells

/-- The `remainingPlayers` computation of lines 133–137: active players
whose (updated) board still has an unsunk ship. -/
def remainingPlayersV1 (players : List PlayerSettings)
    (newPlayerBoards : List (Int × PlayerBoard)) : List PlayerSettings :=
  (players.filter (fun p => decide (p.type ≠ PlayerType.none))).filter
    (fun p =>
      match lookupBoard newPlayerBoards p.id with
      | Option.some b => !(checkAllShipsSunk b)
      | Option.none => false)

/-- Lines 139–142: when the target board is fully sunk, additionally filter
the target player out of `remainingPlayers` (a no-op, since an all-sunk
board is already filtered out). -/
def remainingAfterV1 (players : List PlayerSettings)
    (newPlayerBoards : List (Int × PlayerBoard)) (newTargetBoard : PlayerBoard)
    (targetPlayerId : Int) : List PlayerSettings :=
  if checkAllShipsSunk newTargetBoard then
    (remainingPlayersV1 players newPlayerBoards).filter
      (fun p => decide (p.id ≠ targetPlayerId))
  else remainingPlayersV1 players newPlayerBoards

/-- Lines 132–158 (the `ゲーム終了条件のチェック` block): recompute the
remaining players over all boards, conclude the game when at most one
remains. -/
def endgameCheckV1 (st : GameState) (newPlayerBoards : List (Int × PlayerBoard))
    (newTargetBoard : PlayerBoard) (targetPlayerId : Int)
    (hit : Bool) (sunkShipId : Option String) : GameState × AttackResultV1 :=
  if (remainingAfterV1 st.players newPlayerBoards newTargetBoard targetPlayerId).length ≤ 1 then
    ({ st with playerBoards := newPlayerBoards,
               phase := GamePhase.gameOver,
               winnerId := if (remainingAfterV1 st.players newPlayerBoards
                     newTargetBoard targetPlayerId).length = 1 then
                   (remainingAfterV1 st.players newPlayerBoards newTargetBoard
                     targetPlayerId).head?.map (·.id)
                 else Option.none },
     { hit := hit, sunkShipId := sunkShipId, isGameOver := true })
  else
    ({ st with playerBoards := newPlayerBoards },
     { hit := hit, sunkShipId := sunkShipId, isGameOver := false })

/-- Line 89: the cell the attack lands on. -/
def v1Cell (targetBoard : PlayerBoard) (coord : Coordinate) : Cell :=
  cellAt targetBoard.cells coord.y coord.x

/-- Line 90: `cell.status === 'ship' ? 'hit' : 'miss'`. -/
def v1Mark (targetBoard : PlayerBoard) (coord : Coordinate) : AttackMark :=
  if (v1Cell targetBoard coord).status = CellStatus.ship then .hit else .miss

/-- Lines 101–110: when the shot is a hit on a cell carrying a ship id,
rewrite the ship list through `findIndex` + update. -/
def v1ShipsUpd (targetBoard : PlayerBoard) (coord : Coordinate) :
    List PlacedShip × Option PlacedShip :=
  match v1Mark targetBoard coord, (v1Cell targetBoard coord).shipId with
  | .hit, Option.some sid => hitShipUpdate sid coord targetBoard.placedShips
  | _, _ => (targetBoard.placedShips, Option.none)

/-- Lines 112–113: the ship that this very shot completed, if any. -/
def v1SunkShip (targetBoard : PlayerBoard) (coord : Coordinate) :
    Option PlacedShip :=
  match (v1ShipsUpd targetBoard coord).2 with
  | Option.some s' => if s'.isSunk then Option.some s' else Option.none
  | Option.none => Option.none

/-- Lines 92–122: grid after the shot — the attacked cell gets the
hit/miss mark, then a newly sunk ship overwrites all of its cells with
`'sunk'`. -/
def v1Cells2 (targetBoard : PlayerBoard) (coord : Coordinate) :
    List (List Cell) :=
  match v1SunkShip targetBoard coord with
  | Option.some s' =>
    sinkShipCells
      (setStatus targetBoard.cells coord.y coord.x
        (markToStatus (v1Mark targetBoard coord))) s'
  | Option.none =>
    setStatus targetBoard.cells coord.y coord.x
      (markToStatus (v1Mark targetBoard coord))

/-- Lines 92–130: the rewritten target board (cells, ships, attack
record). -/
def v1NewBoard (targetBoard : PlayerBoard) (coord : Coordinate) :
    PlayerBoard :=
  { targetBoard with
    cells := v1Cells2 targetBoard coord,
    placedShips := (v1ShipsUpd targetBoard coord).1,
    attackedCells := (coord, v1Mark targetBoard coord) :: targetBoard.attackedCells }

/-- `handleAttack` of the first `GameContext.tsx` variant (lines 61–163):
guard on the target board's `attackedCells`, mark the cell, update the hit
ship's bookkeeping, sink its cells when complete, then run the end-game
check over all boards. -/
def handleAttackV1 (st : GameState) (attackerId targetPlayerId : Int)
    (coord : Coordinate) : GameState × AttackResultV1 :=
  match lookupBoard st.playerBoards targetPlayerId with
  | Option.none => (st, { hit := false, sunkShipId := Option.none, isGameOver := false })
  | Option.some targetBoard =>
    if (lookupAttacked targetBoard.attackedCells coord).isSome then
      (st, { hit := false, sunkShipId := Option.none, isGameOver := false })
    else
      endgameCheckV1 st
        (setBoard st.playerBoards targetPlayerId (v1NewBoard targetBoard coord))
        (v1NewBoard targetBoard coord) targetPlayerId
        (decide (v1Mark targetBoard coord = AttackMark.hit))
        ((v1SunkShip targetBoard coord).map (·.id))

/-! ## Alive seats (spec side of claim C1) -/

/-- The active seats (`type !== 'none'`) whose board still holds at least
one unsunk ship — the quantity claim C1 talks about. -/
def aliveSeats (st : GameState) : List PlayerSettings :=
  (st.players.filter (fun p => decide (p.type ≠ PlayerType.none))).filter
    (fun p =>
      match lookupBoard st.playerBoards p.id with
      | Option.some b => hasUnsunkShip b
      | Option.none => false)

theorem aliveSeats_eq_remaining (st : GameState) :
    aliveSeats st = remainingPlayersV1 st.players st.playerBoards := by
  unfold aliveSeats remainingPlayersV1
  refine List.filter_congr ?_
  intro p _
  cases h : lookupBoard st.playerBoards p.id with
  | none => rfl
  | some b => simp [hasUnsunkShip_eq_not_checkAllShipsSunk]

/-- Behaviour of the end-game block of the first `handleAttack` variant:
provided the freshly written target board is the one the board map now
yields for the target id, the game concludes exactly when at most one
active seat keeps an unsunk ship, the single survivor (if any) becomes the
winner, zero survivors yield a draw, and two or more survivors leave phase
and winner untouched. -/
theorem endgameCheckV1_spec (st : GameState)
    (nb : List (Int × PlayerBoard)) (ntb : PlayerBoard) (tid : Int)
    (hit : Bool) (sid : Option String) (st' : GameState)
    (res : AttackResultV1)
    (hlook : lookupBoard nb tid = Option.some ntb)
    (h : endgameCheckV1 st nb ntb tid hit sid = (st', res)) :
    st'.players = st.players ∧ st'.playerBoards = nb ∧
    ((st'.phase = GamePhase.gameOver ∧ res.isGameOver = true) ↔
      (aliveSeats st').length ≤ 1) ∧
    (∀ p, aliveSeats st' = [p] → st'.winnerId = Option.some p.id) ∧
    ((aliveSeats st').length = 0 →
      st'.phase = GamePhase.gameOver ∧ st'.winnerId = Option.none) ∧
    (2 ≤ (aliveSeats st').length →
      st'.phase = st.phase ∧ st'.winnerId = st.winnerId) := by
  classical
  have hR' : remainingAfterV1 st.players nb ntb tid = remainingPlayersV1 st.players nb := by
    unfold remainingAfterV1
    split
    · rename_i hsunk
      refine List.filter_eq_self.mpr ?_
      intro p hp
      have hmem := (List.mem_filter.mp hp).2
      by_contra hcon
      have hpid : p.id = tid := by simpa using hcon
      rw [hpid, hlook] at hmem
      simp [hsunk] at hmem
    · rfl
  unfold endgameCheckV1 at h
  rw [hR'] at h
  by_cases hlen : (remainingPlayersV1 st.players nb).length ≤ 1
  · rw [if_pos hlen] at h
    obtain ⟨hst, hres⟩ := Prod.mk.injEq .. ▸ h
    subst hst hres
    simp only [aliveSeats_eq_remaining]
    refine ⟨by trivial, by trivial, ?_, ?_, ?_, ?_⟩
    · exact ⟨fun _ => hlen, fun _ => by simp⟩
    · intro p hp
      simp [hp]
    · intro hzero
      refine ⟨by trivial, ?_⟩
      show (if (remainingPlayersV1 st.players nb).length = 1 then
          Option.map (fun x => x.id) (remainingPlayersV1 st.players nb).head?
        else Option.none) = Option.none
      rw [if_neg (by omega)]
    · intro h2
      omega
  · rw [if_neg hlen] at h
    obtain ⟨hst, hres⟩ := Prod.mk.injEq .. ▸ h
    subst hst hres
    simp only [aliveSeats_eq_remaining]
    refine ⟨by trivial, by trivial, ?_, ?_, ?_, ?_⟩
    · constructor
      · rintro ⟨_, hco⟩
        exact absurd hco (by simp)
      · intro hco
        exact absurd hco hlen
    · intro p hp
      rw [hp] at hlen
      simp at hlen
    · intro hzero
      omega
    · intro _
      exact ⟨by trivial, by trivial⟩

/-- Claim C1 (first `handleAttack` variant, `GameContext.tsx` lines
61–163): under the preconditions — combat phase, distinct attacker and
target, the target board exists — and on a not-yet-resolved coordinate,
after the call the phase is `game-over` iff at most one active seat
retains an unsunk ship; a unique survivor becomes the winner, zero
survivors leave the winner `null`, and with two or more survivors the
phase and winner are unchanged. -/
theorem handleAttackV1_concludes_iff_at_most_one_alive
    (st : GameState) (attackerId targetPlayerId : Int) (coord : Coordinate)
    (st' : GameState) (res : AttackResultV1) (tb : PlayerBoard)
    (hphase : st.phase = GamePhase.inGame)
    (hdiff : attackerId ≠ targetPlayerId)
    (htb : lookupBoard st.playerBoards targetPlayerId = Option.some tb)
    (hfresh : lookupAttacked tb.attackedCells coord = Option.none)
    (h : handleAttackV1 st attackerId targetPlayerId coord = (st', res)) :
    (st'.phase = GamePhase.gameOver ↔ (aliveSeats st').length ≤ 1) ∧
    (∀ p, aliveSeats st' = [p] → st'.winnerId = Option.some p.id) ∧
    ((aliveSeats st').length = 0 → st'.winnerId = Option.none) ∧
    (2 ≤ (aliveSeats st').length →
      st'.phase = st.phase ∧ st'.winnerId = st.winnerId) := by
  unfold handleAttackV1 at h
  rw [htb] at h
  simp only [hfresh, Option.isSome_none, Bool.false_eq_true, if_false] at h
  obtain ⟨-, -, c3, c4, c5, c6⟩ := endgameCheckV1_spec st _ _ targetPlayerId
    _ _ st' res (lookupBoard_setBoard_same ..) h
  refine ⟨⟨?_, ?_⟩, c4, fun h0 => (c5 h0).2, c6⟩
  · intro hgo
    by_contra hcon
    have h2 : 2 ≤ (aliveSeats st').length := by omega
    have := (c6 h2).1
    rw [hphase] at this
    rw [this] at hgo
    exact GamePhase.noConfusion hgo
  · intro hle
    exact ((c3.mpr hle)).1

/-! ## `handleAttack`, second variant (`GameContext.tsx` lines 499–568) -/

instance : Inhabited PlayerSettings :=
  ⟨{ id := 0, name := "", type := PlayerType.none }⟩

/-- The result record of the second variant: `{ hit, sunkShipId?,
alreadyAttacked? }`. -/
structure AttackResultV2 where
  hit : Bool
  sunkShipId : Option String := Option.none
  alreadyAttacked : Bool := false
deriving DecidableEq, Repr

/-- Replace the first ship satisfying `p` (JS `find` returns a reference
that the caller then mutates in place). -/
def updateFirstShip (p : PlacedShip → Bool) (f : PlacedShip → PlacedShip) :
    List PlacedShip → List PlacedShip
  | [] => []
  | s :: rest => if p s then f s :: rest else s :: updateFirstShip p f rest

/-- `handleAttack` of the second `GameContext.tsx` variant (lines 499–568):
the already-attacked guard keys on the **attacker's** `attackedCells`
record; on a hit the ship's (deduplicated) hit list and `isSunk` are
updated, a newly sunk ship's cells are set to `'sunk'` and afterwards the
attacked cell is set to `'hit'`; if every target ship is sunk the attacker
becomes the winner and the phase flips to `game-over`. Missing boards would
crash the JS (`JSON.parse(JSON.stringify(undefined))`), modelled as
`Option.none`. -/
def handleAttackV2 (st : GameState) (attackerId targetPlayerId : Int)
    (coord : Coordinate) : Option (GameState × AttackResultV2) :=
  match lookupBoard st.playerBoards targetPlayerId,
        lookupBoard st.playerBoards attackerId with
  | Option.some targetBoard, Option.some attackingPlayerBoard =>
    if (lookupAttacked attackingPlayerBoard.attackedCells coord).isSome then
      Option.some (st, { hit := false, alreadyAttacked := true })
    else
      let cell := cellAt targetBoard.cells coord.y coord.x
      if cell.status = CellStatus.ship then
        match targetBoard.placedShips.find?
            (fun s => decide (cell.shipId = Option.some s.id)) with
        | Option.some hitShip =>
          let newHits :=
            if hitShip.hits.any (fun h => decide (h.x = coord.x) && decide (h.y = coord.y)) then
              hitShip.hits
            else hitShip.hits ++ [coord]
          let nowSunk := decide (newHits.length = hitShip.definition.size)
          let ships' := updateFirstShip
            (fun s => decide (cell.shipId = Option.some s.id))
            (fun s => { s with hits := newHits, isSunk := nowSunk })
            targetBoard.placedShips
          let cellsA := if nowSunk then sinkShipCells targetBoard.cells hitShip
            else targetBoard.cells
          let cellsB := setStatus cellsA coord.y coord.x CellStatus.hit
          let targetBoard' := { targetBoard with cells := cellsB, placedShips := ships' }
          let attacker' := { attackingPlayerBoard with
            attackedCells := (coord, AttackMark.hit) :: attackingPlayerBoard.attackedCells }
          let boards' := setBoard (setBoard st.playerBoards targetPlayerId targetBoard')
            attackerId attacker'
          let res : AttackResultV2 :=
            { hit := true,
              sunkShipId := if nowSunk then Option.some hitShip.id else Option.none }
          if targetBoard'.placedShips.all (·.isSunk) then
            Option.some ({ st with playerBoards := boards',
                                   winnerId := Option.some attackerId,
                                   phase := GamePhase.gameOver }, res)
          else
            Option.some ({ st with playerBoards := boards' }, res)
        | Option.none =>
          let cellsB := setStatus targetBoard.cells coord.y coord.x CellStatus.hit
          let targetBoard' := { targetBoard with cells := cellsB }
          let attacker' := { attackingPlayerBoard with
            attackedCells := (coord, AttackMark.hit) :: attackingPlayerBoard.attackedCells }
          let boards' := setBoard (setBoard st.playerBoards targetPlayerId targetBoard')
            attackerId attacker'
          let res : AttackResultV2 := { hit := true }
          if targetBoard'.placedShips.all (·.isSunk) then
            Option.some ({ st with playerBoards := boards',
                                   winnerId := Option.some attackerId,
                                   phase := GamePhase.gameOver }, res)
          else
            Option.some ({ st with playerBoards := boards' }, res)
      else
        let cellsB := setStatus targetBoard.cells coord.y coord.x CellStatus.miss
        let targetBoard' := { targetBoard with cells := cellsB }
        let attacker' := { attackingPlayerBoard with
          attackedCells := (coord, AttackMark.miss) :: attackingPlayerBoard.attackedCells }
        let boards' := setBoard (setBoard st.playerBoards targetPlayerId targetBoard')
          attackerId attacker'
        let res : AttackResultV2 := { hit := false }
        if targetBoard'.placedShips.all (·.isSunk) then
          Option.some ({ st with playerBoards := boards',
                                 winnerId := Option.some attackerId,
                                 phase := GamePhase.gameOver }, res)
        else
          Option.some ({ st with playerBoards := boards' }, res)
  | _, _ => Option.none

/-! ## `handleAttack`, third variant (`GameContext.tsx` lines 802–891) -/

/-- The result record of the third variant: `{ hit, sunkShipId? }`. -/
structure AttackResultV3 where
  hit : Bool
  sunkShipId : Option String := Option.none
deriving DecidableEq, Repr

/-- `handleAttack` of the third `GameContext.tsx` variant (lines 802–891):
the already-attacked guard checks the target cell's status for `'hit'` or
`'miss'` only (not `'sunk'`); `'ship'` cells become `'hit'`, everything
else — including `'sunk'` — becomes `'miss'`; the ship list is rewritten
through `map`, there is no sunk-cell loop; the attacker becomes the winner
as soon as every target ship is sunk. -/
def handleAttackV3 (st : GameState) (attackerId targetPlayerId : Int)
    (coord : Coordinate) : Option (GameState × AttackResultV3) :=
  match lookupBoard st.playerBoards targetPlayerId,
        lookupBoard st.playerBoards attackerId with
  | Option.some targetBoard, Option.some attackerBoard =>
    let cellToAttack := cellAt targetBoard.cells coord.y coord.x
    if cellToAttack.status = CellStatus.hit ∨ cellToAttack.status = CellStatus.miss then
      Option.some (st, { hit := false })
    else
      let isHit := cellToAttack.status = CellStatus.ship
      let shipRes : List PlacedShip × Option String :=
        if cellToAttack.status = CellStatus.ship then
          match targetBoard.placedShips.find?
              (fun s => decide (cellToAttack.shipId = Option.some s.id)) with
          | Option.some hitShip =>
            let newHits := hitShip.hits ++ [coord]
            let nowSunk := decide (newHits.length = hitShip.definition.size)
            (targetBoard.placedShips.map (fun s =>
                if s.id = hitShip.id then { s with hits := newHits, isSunk := nowSunk }
                else s),
             if nowSunk then Option.some hitShip.id else Option.none)
          | Option.none => (targetBoard.placedShips, Option.none)
        else (targetBoard.placedShips, Option.none)
      let newStatus := if isHit then CellStatus.hit else CellStatus.miss
      let newCells := setStatus targetBoard.cells coord.y coord.x newStatus
      let targetBoard' := { targetBoard with cells := newCells, placedShips := shipRes.1 }
      let attacker' := { attackerBoard with
        attackedCells :=
          (coord, if isHit then AttackMark.hit else AttackMark.miss) ::
            attackerBoard.attackedCells }
      let boards' := setBoard (setBoard st.playerBoards targetPlayerId targetBoard')
        attackerId attacker'
      let res : AttackResultV3 := { hit := isHit, sunkShipId := shipRes.2 }
      if targetBoard'.placedShips.all (·.isSunk) then
        Option.some ({ st with playerBoards := boards',
                               winnerId := Option.some attackerId,
                               phase := GamePhase.gameOver }, res)
      else
        Option.some ({ st with playerBoards := boards' }, res)
  | _, _ => Option.none

/-! ## `advanceTurn`, both cited variants -/

/-- `advanceTurn` of the second `GameContext.tsx` variant (lines 471–497):
simply rotates to the next active player — no check of that player's
fleet. -/
def advanceTurnV2 (st : GameState) : GameState :=
  if st.phase = GamePhase.gameOver then st
  else
    let activePlayers := st.players.filter (fun p => decide (p.type ≠ PlayerType.none))
    if activePlayers.length = 0 then st
    else
      let currentIndex := activePlayers.findIdx
        (fun p => decide (p.id = st.currentPlayerTurnId))
      let nextIndex :=
        if currentIndex = activePlayers.length then 0
        else (currentIndex + 1) % activePlayers.length
      { st with currentPlayerTurnId := (activePlayers.getD nextIndex default).id }

/-- `advanceTurn` of the first `GameContext.tsx` variant (lines 182–206):
rotates to the next active player and then enters
`while (checkAllShipsSunk(prev.playerBoards[nextPlayerId]) &&
remainingPlayersCount > 1)`; `remainingPlayersCount` is never declared, so
as soon as the left conjunct is `true` the JS evaluation throws a
`ReferenceError` (modelled as `Except.error`); a missing board would make
`checkAllShipsSunk` itself throw. -/
def advanceTurnV1 (st : GameState) : Except String GameState :=
  let activePlayers := st.players.filter (fun p => decide (p.type ≠ PlayerType.none))
  if activePlayers.length = 0 then Except.ok st
  else
    let currentIndex := activePlayers.findIdx
      (fun p => decide (p.id = st.currentPlayerTurnId))
    let nextIndex :=
      if currentIndex = activePlayers.length then 0
      else (currentIndex + 1) % activePlayers.length
    let nextPlayerId := (activePlayers.getD nextIndex default).id
    match lookupBoard st.playerBoards nextPlayerId with
    | Option.none =>
      Except.error "TypeError: cannot read placedShips of undefined"
    | Option.some b =>
      if checkAllShipsSunk b then
        Except.error "ReferenceError: remainingPlayersCount is not defined"
      else
        Except.ok { st with currentPlayerTurnId := nextPlayerId }

/-! ## Claim C4 machinery -/

/-- A hit list that is duplicate-free and contained in the ship's occupied
cells fills the ship exactly when its length reaches the ship size. -/
theorem hits_full_iff (s : PlacedShip) (hnd : s.hits.Nodup)
    (hsub : ∀ c ∈ s.hits, c ∈ occupiedCoords s) :
    s.hits.length = s.definition.size ↔
      (∀ c, c ∈ s.hits ↔ c ∈ occupiedCoords s) := by
  have hOnd : (occupiedCoords s).Nodup := occupiedCoords_nodup s
  have hOlen : (occupiedCoords s).length = s.definition.size :=
    occupiedCoords_length s
  constructor
  · intro hlen
    have hsubF : s.hits.toFinset ⊆ (occupiedCoords s).toFinset := by
      intro c hc
      rw [List.mem_toFinset] at hc ⊢
      exact hsub c hc
    have hcard : (occupiedCoords s).toFinset.card ≤ s.hits.toFinset.card := by
      rw [List.toFinset_card_of_nodup hnd, List.toFinset_card_of_nodup hOnd]
      omega
    have := Finset.eq_of_subset_of_card_le hsubF hcard
    intro c
    rw [← List.mem_toFinset, ← List.mem_toFinset (l := occupiedCoords s), this]
  · intro hiff
    have : s.hits.toFinset = (occupiedCoords s).toFinset := by
      ext c
      rw [List.mem_toFinset, List.mem_toFinset]
      exact hiff c
    have hc1 := List.toFinset_card_of_nodup hnd
    have hc2 := List.toFinset_card_of_nodup hOnd
    rw [this] at hc1
    omega

/-- Shape of `hitShipUpdate`: either no ship matches the id and nothing
changes, or the list splits around the first match, which gets the new hit
appended and its `isSunk` flag recomputed. -/
theorem hitShipUpdate_split (sid : String) (coord : Coordinate) :
    ∀ l l' u, hitShipUpdate sid coord l = (l', u) →
      (l' = l ∧ u = Option.none ∧ ∀ s ∈ l, s.id ≠ sid) ∨
      (∃ l₁ s l₂,
        l = l₁ ++ s :: l₂ ∧ (∀ t ∈ l₁, t.id ≠ sid) ∧ s.id = sid ∧
        u = Option.some
          { s with hits := s.hits ++ [coord],
                   isSunk := decide ((s.hits ++ [coord]).length = s.definition.size) } ∧
        l' = l₁ ++
          { s with hits := s.hits ++ [coord],
                   isSunk := decide ((s.hits ++ [coord]).length = s.definition.size) } :: l₂)
  | [], l', u, h => by
    left
    obtain ⟨h1, h2⟩ := Prod.mk.injEq .. ▸ h
    exact ⟨h1.symm, h2.symm, by simp⟩
  | s :: rest, l', u, h => by
    unfold hitShipUpdate at h
    by_cases hid : s.id = sid
    · rw [if_pos hid] at h
      obtain ⟨h1, h2⟩ := Prod.mk.injEq .. ▸ h
      right
      exact ⟨[], s, rest, by simp, by simp, hid, h2.symm, by
        rw [← h1]; simp⟩
    · rw [if_neg hid] at h
      obtain ⟨h1, h2⟩ := Prod.mk.injEq .. ▸ h
      rcases hitShipUpdate_split sid coord rest
          (hitShipUpdate sid coord rest).1 (hitShipUpdate sid coord rest).2 rfl with
        hnone | ⟨l₁, t, l₂, hsplit, hl₁, htid, hu, hl'⟩
      · left
        refine ⟨?_, ?_, ?_⟩
        · rw [← h1, hnone.1]
        · rw [← h2, hnone.2.1]
        · intro t ht
          rcases List.mem_cons.mp ht with rfl | ht'
          · exact hid
          · exact hnone.2.2 t ht'
      · right
        refine ⟨s :: l₁, t, l₂, by rw [hsplit]; rfl, ?_, htid, by rw [← h2, hu], ?_⟩
        · intro t' ht'
          rcases List.mem_cons.mp ht' with rfl | ht''
          · exact hid
          · exact hl₁ t' ht''
        · rw [← h1, hl']
          rfl

/-- After folding `'sunk'` writes over a coordinate list, every listed
(in-bounds) coordinate reads back `'sunk'` — and cells that were already
`'sunk'` stay `'sunk'`. -/
theorem foldl_sink_status (L : List Coordinate) :
    ∀ g : List (List Cell), gridWF g →
      (∀ c ∈ L, isCoordinateInBounds c = true) →
      ∀ c : Coordinate, isCoordinateInBounds c = true →
        (c ∈ L ∨ (cellAt g c.y c.x).status = CellStatus.sunk) →
        (cellAt (L.foldl (fun g' q => setStatus g' q.y q.x CellStatus.sunk) g)
            c.y c.x).status = CellStatus.sunk := by
  induction L with
  | nil =>
    intro g _ _ c _ hc
    rcases hc with hc | hc
    · exact absurd hc (by simp)
    · exact hc
  | cons q L' ih =>
    intro g hwf hb c hcb hc
    have hqb : isCoordinateInBounds q = true := hb q (by simp)
    have hqb' := hqb
    unfold isCoordinateInBounds at hqb'
    have hcb' := hcb
    unfold isCoordinateInBounds at hcb'
    simp only [Bool.and_eq_true, decide_eq_true_eq] at hqb' hcb'
    rw [List.foldl_cons]
    have hwf1 : gridWF (setStatus g q.y q.x CellStatus.sunk) :=
      gridWF_setStatus g q.y q.x CellStatus.sunk hwf
    refine ih _ hwf1 (fun c' hc' => hb c' (by simp [hc'])) c hcb ?_
    by_cases hcL : c ∈ L'
    · exact Or.inl hcL
    · right
      rcases hc with hc | hc
      · have hcq : c = q := by
          rcases List.mem_cons.mp hc with h | h
          · exact h
          · exact absurd h hcL
        subst hcq
        rw [cellAt_setStatus_same g c.y c.x CellStatus.sunk hwf
          (by omega) (by omega) (by omega) (by omega)]
      · by_cases hcq : c = q
        · subst hcq
          rw [cellAt_setStatus_same g c.y c.x CellStatus.sunk hwf
            (by omega) (by omega) (by omega) (by omega)]
        · rw [cellAt_setStatus_other g q.y q.x c.y c.x CellStatus.sunk ?_]
          · exact hc
          · intro hcon
            apply hcq
            cases c; cases q
            simp only [Coordinate.mk.injEq]
            exact ⟨hcon.2, hcon.1⟩

/-- `sinkShipCells` really is the fold of `'sunk'` writes over the ship's
occupied coordinates. -/
theorem sinkShipCells_eq_foldl (cells : List (List Cell)) (s : PlacedShip) :
    sinkShipCells cells s =
      (occupiedCoords s).foldl
        (fun g q => setStatus g q.y q.x CellStatus.sunk) cells := by
  unfold sinkShipCells occupiedCoords
  rw [List.foldl_map]

/-- On a 10×10 grid, a cell read that yields a `shipId` must have happened
in bounds: out-of-range reads return the default cell, whose `shipId` is
`none`. -/
theorem cellAt_shipId_bounds (cells : List (List Cell)) (hwf : gridWF cells)
    (y x : Int) (sid : String)
    (h : (cellAt cells y x).shipId = Option.some sid) :
    0 ≤ y ∧ y < 10 ∧ 0 ≤ x ∧ x < 10 := by
  obtain ⟨hlen, hrows⟩ := hwf
  unfold cellAt at h
  by_cases hp : 0 ≤ y ∧ 0 ≤ x
  · rw [if_pos hp] at h
    have hrowlen : (cells[y.toNat]?.getD []).length ≤ 10 := by
      cases hrow : cells[y.toNat]? with
      | none => simp
      | some row =>
        have : row ∈ cells := List.getElem?_mem hrow
        simp [hrows row this]
    by_cases hy : y < 10
    · by_cases hx : x < 10
      · exact ⟨hp.1, hy, hp.2, hx⟩
      · exfalso
        have hnone : (cells[y.toNat]?.getD [])[x.toNat]? = Option.none := by
          apply List.getElem?_eq_none
          omega
        rw [hnone] at h
        exact Option.noConfusion h
    · exfalso
      have hnone : cells[y.toNat]? = Option.none := by
        apply List.getElem?_eq_none
        omega
      rw [hnone] at h
      exact Option.noConfusion h
  · rw [if_neg hp] at h
    exact Option.noConfusion h

/-- The well-formedness invariant of a board in play: a 10×10 grid; every
ship's hit list is duplicate-free, contained in its occupied cells, its
`isSunk` flag agrees with `hits.length === definition.size`, and every hit
is recorded in `attackedCells`; occupied cells are in bounds; ship ids are
unique; a cell's `shipId` back-reference points at a ship occupying that
cell (the back-reference clause quantifies over the 10×10 grid positions,
which by `cellAt_shipId_bounds` loses no generality and keeps the predicate
decidable). -/
def boardWF (b : PlayerBoard) : Prop :=
  gridWF b.cells ∧
  (∀ s ∈ b.placedShips,
    s.hits.Nodup ∧
    (∀ c ∈ s.hits, c ∈ occupiedCoords s) ∧
    s.isSunk = decide (s.hits.length = s.definition.size) ∧
    (∀ c ∈ s.hits, (lookupAttacked b.attackedCells c).isSome = true)) ∧
  (∀ s ∈ b.placedShips, ∀ c ∈ occupiedCoords s, isCoordinateInBounds c = true) ∧
  (b.placedShips.map (·.id)).Nodup ∧
  (∀ yn : Nat, yn < 10 → ∀ xn : Nat, xn < 10 →
    (cellAt b.cells (Int.ofNat yn) (Int.ofNat xn)).shipId = Option.none ∨
    ∃ s ∈ b.placedShips,
      (cellAt b.cells (Int.ofNat yn) (Int.ofNat xn)).shipId = Option.some s.id ∧
      (⟨Int.ofNat xn, Int.ofNat yn⟩ : Coordinate) ∈ occupiedCoords s)

instance : DecidablePred boardWF := fun b => by
  unfold boardWF; infer_instance

/-- The bounded back-reference clause of `boardWF` yields the unbounded
reading: wherever a cell carries a `shipId`, some placed ship with that id
occupies that coordinate. -/
theorem shipIdLinked_lookup (b : PlayerBoard) (hgrid : gridWF b.cells)
    (hlink : ∀ yn : Nat, yn < 10 → ∀ xn : Nat, xn < 10 →
      (cellAt b.cells (Int.ofNat yn) (Int.ofNat xn)).shipId = Option.none ∨
      ∃ s ∈ b.placedShips,
        (cellAt b.cells (Int.ofNat yn) (Int.ofNat xn)).shipId = Option.some s.id ∧
        (⟨Int.ofNat xn, Int.ofNat yn⟩ : Coordinate) ∈ occupiedCoords s)
    (y x : Int) (sid : String)
    (h : (cellAt b.cells y x).shipId = Option.some sid) :
    ∃ s ∈ b.placedShips, s.id = sid ∧ (⟨x, y⟩ : Coordinate) ∈ occupiedCoords s := by
  obtain ⟨hy0, hy10, hx0, hx10⟩ := cellAt_shipId_bounds b.cells hgrid y x sid h
  have hyeq : y = Int.ofNat y.toNat := by simp [Int.ofNat_eq_coe]; omega
  have hxeq : x = Int.ofNat x.toNat := by simp [Int.ofNat_eq_coe]; omega
  rw [hyeq, hxeq] at h ⊢
  rcases hlink y.toNat (by omega) x.toNat (by omega) with h0 | ⟨s, hs, hsid, hocc⟩
  · rw [h0] at h
    exact absurd h (by simp)
  · rw [hsid] at h
    have : s.id = sid := by
      have := Option.some.injEq .. ▸ h
      simpa using this
    exact ⟨s, hs, this, hocc⟩

/-- `isSunk` agrees with the hit-set-equals-occupied-set reading for a
well-formed ship. -/
theorem ship_iff_of_wf (s : PlacedShip) (hnd : s.hits.Nodup)
    (hsub : ∀ c ∈ s.hits, c ∈ occupiedCoords s)
    (hform : s.isSunk = decide (s.hits.length = s.definition.size)) :
    (s.isSunk = true ↔ ∀ c, c ∈ s.hits ↔ c ∈ occupiedCoords s) := by
  rw [hform, decide_eq_true_eq]
  exact hits_full_iff s hnd hsub

/-- The result and board-map part of `endgameCheckV1` is independent of the
survivor count. -/
theorem endgameCheckV1_passthrough (st : GameState)
    (nb : List (Int × PlayerBoard)) (ntb : PlayerBoard) (tid : Int)
    (hit : Bool) (sid : Option String) (st' : GameState) (res : AttackResultV1)
    (h : endgameCheckV1 st nb ntb tid hit sid = (st', res)) :
    st'.playerBoards = nb ∧ res.sunkShipId = sid ∧ res.hit = hit := by
  unfold endgameCheckV1 at h
  split at h <;> (cases h; exact ⟨rfl, rfl, rfl⟩)

theorem v1ShipsUpd_cases (tb : PlayerBoard) (coord : Coordinate) :
    (v1ShipsUpd tb coord = (tb.placedShips, Option.none)) ∨
    (∃ sid, v1Mark tb coord = AttackMark.hit ∧
      (v1Cell tb coord).shipId = Option.some sid ∧
      v1ShipsUpd tb coord = hitShipUpdate sid coord tb.placedShips) := by
  unfold v1ShipsUpd
  cases hm : v1Mark tb coord with
  | miss =>
    left
    cases (v1Cell tb coord).shipId <;> rfl
  | hit =>
    cases hs : (v1Cell tb coord).shipId with
    | none => left; rfl
    | some sid => right; exact ⟨sid, rfl, rfl, rfl⟩

/-- Lines 107–109 as a value: the hit ship after appending the new hit
and recomputing `isSunk`. -/
def updatedShip (s : PlacedShip) (coord : Coordinate) : PlacedShip :=
  { s with hits := s.hits ++ [coord],
           isSunk := decide ((s.hits ++ [coord]).length = s.definition.size) }

/-- Claim C4, amended to the first `handleAttack` variant (`GameContext.tsx`
lines 61–163): on a well-formed target board and a fresh coordinate, after
the call every placed ship's `isSunk` flag is true iff its (duplicate-free)
hit set equals its occupied set; a returned `sunkShipId` names a ship that
was unsunk before the call, is sunk after it, and has all of its occupied
cells at status `'sunk'`; conversely the call that flips a ship's `isSunk`
flag returns exactly that ship's id. -/
theorem handleAttackV1_sunk_bookkeeping
    (st : GameState) (attackerId targetPlayerId : Int) (coord : Coordinate)
    (st' : GameState) (res : AttackResultV1) (tb : PlayerBoard)
    (htb : lookupBoard st.playerBoards targetPlayerId = Option.some tb)
    (hwf : boardWF tb)
    (hfresh : lookupAttacked tb.attackedCells coord = Option.none)
    (h : handleAttackV1 st attackerId targetPlayerId coord = (st', res)) :
    lookupBoard st'.playerBoards targetPlayerId =
      Option.some (v1NewBoard tb coord) ∧
    (∀ s' ∈ (v1NewBoard tb coord).placedShips,
      s'.isSunk = true ↔ (∀ c, c ∈ s'.hits ↔ c ∈ occupiedCoords s')) ∧
    (∀ sid, res.sunkShipId = Option.some sid →
      ∃ s' ∈ (v1NewBoard tb coord).placedShips, s'.id = sid ∧ s'.isSunk = true ∧
        (∀ c ∈ occupiedCoords s',
          (cellAt (v1NewBoard tb coord).cells c.y c.x).status = CellStatus.sunk) ∧
        ∃ s₀ ∈ tb.placedShips, s₀.id = sid ∧ s₀.isSunk = false) ∧
    (∀ sid s₀ s', s₀ ∈ tb.placedShips → s₀.id = sid → s₀.isSunk = false →
      s' ∈ (v1NewBoard tb coord).placedShips → s'.id = sid → s'.isSunk = true →
      res.sunkShipId = Option.some sid) := by
  obtain ⟨hgrid, hships, hbnds, hidnd, hlink⟩ := hwf
  have hcellship : ∀ y x : Int, ∀ sid : String,
      (cellAt tb.cells y x).shipId = Option.some sid →
      ∃ s ∈ tb.placedShips, s.id = sid ∧ (⟨x, y⟩ : Coordinate) ∈ occupiedCoords s :=
    fun y x sid hy => shipIdLinked_lookup tb hgrid hlink y x sid hy
  unfold handleAttackV1 at h
  rw [htb] at h
  simp only [hfresh, Option.isSome_none, Bool.false_eq_true, if_false] at h
  obtain ⟨hb', hres, -⟩ := endgameCheckV1_passthrough _ _ _ _ _ _ _ _ h
  have hlook : lookupBoard st'.playerBoards targetPlayerId =
      Option.some (v1NewBoard tb coord) := by
    rw [hb']
    exact lookupBoard_setBoard_same ..
  have hships' : (v1NewBoard tb coord).placedShips = (v1ShipsUpd tb coord).1 := rfl
  rcases v1ShipsUpd_cases tb coord with hA | ⟨sid0, hmark, hsid, hupd⟩
  · -- miss, or hit on a cell without a ship id: ship list untouched
    have hsunkA : v1SunkShip tb coord = Option.none := by
      unfold v1SunkShip
      rw [hA]
    refine ⟨hlook, ?_, ?_, ?_⟩
    · intro s' hs'
      rw [hships', hA] at hs'
      obtain ⟨hnd, hsub, hform, -⟩ := hships s' hs'
      exact ship_iff_of_wf s' hnd hsub hform
    · intro sid hsid'
      rw [hres, hsunkA] at hsid'
      exact absurd hsid' (by simp)
    · intro sid s₀ s' hs₀ hs₀id hs₀f hs' hs'id hs'sunk
      rw [hships', hA] at hs'
      have heq : s₀ = s' :=
        List.inj_on_of_nodup_map hidnd hs₀ hs' (by rw [hs₀id, hs'id])
      rw [heq, hs'sunk] at hs₀f
      exact Bool.noConfusion hs₀f
  · -- hit on a cell carrying ship id `sid0`
    rcases hitShipUpdate_split sid0 coord tb.placedShips
        (hitShipUpdate sid0 coord tb.placedShips).1
        (hitShipUpdate sid0 coord tb.placedShips).2 rfl with
      ⟨hl', hu, hnone⟩ | ⟨l₁, s, l₂, hsplit, hl₁, hsid0, hu, hl'⟩
    · -- no ship carries that id — impossible on a well-formed board
      obtain ⟨t, ht, htid, -⟩ := hcellship coord.y coord.x sid0 hsid
      exact (hnone t ht htid).elim
    · have hsmem : s ∈ tb.placedShips := by
        rw [hsplit]
        exact List.mem_append_right _ (List.mem_cons_self ..)
      obtain ⟨hsnd, hssub, hsform, hsrec⟩ := hships s hsmem
      have hcoordnot : coord ∉ s.hits := by
        intro hc
        have := hsrec coord hc
        rw [hfresh] at this
        simp at this
      have hocc : coord ∈ occupiedCoords s := by
        obtain ⟨t, ht, htid, htocc⟩ := hcellship coord.y coord.x sid0 hsid
        have : t = s :=
          List.inj_on_of_nodup_map hidnd ht hsmem (by rw [htid, hsid0])
        rw [this] at htocc
        exact htocc
      have updnd : (s.hits ++ [coord]).Nodup := by
        rw [List.nodup_append]
        exact ⟨hsnd, List.nodup_singleton _, by simpa using hcoordnot⟩
      have updsub : ∀ c ∈ s.hits ++ [coord],
          c ∈ occupiedCoords (updatedShip s coord) := by
        intro c hc
        rcases List.mem_append.mp hc with hc | hc
        · exact hssub c hc
        · have : c = coord := by simpa using hc
          rw [this]
          exact hocc
      have hvs : v1SunkShip tb coord =
          if decide ((s.hits ++ [coord]).length = s.definition.size) = true then
            Option.some (updatedShip s coord)
          else Option.none := by
        unfold v1SunkShip
        rw [hupd, hu]
        rfl
      refine ⟨hlook, ?_, ?_, ?_⟩
      · intro s' hs'
        rw [hships', hupd, hl'] at hs'
        rcases List.mem_append.mp hs' with hs' | hs'
        · obtain ⟨hnd, hsub, hform, -⟩ := hships s'
            (by rw [hsplit]; exact List.mem_append_left _ hs')
          exact ship_iff_of_wf s' hnd hsub hform
        · rcases List.mem_cons.mp hs' with rfl | hs'
          · exact ship_iff_of_wf _ updnd updsub rfl
          · obtain ⟨hnd, hsub, hform, -⟩ := hships s'
              (by rw [hsplit]
                  exact List.mem_append_right _ (List.mem_cons_of_mem _ hs'))
            exact ship_iff_of_wf s' hnd hsub hform
      · intro sid hsid'
        rw [hres, hvs] at hsid'
        by_cases hfull : ((s.hits ++ [coord]).length = s.definition.size)
        · rw [if_pos (by simpa using hfull)] at hsid'
          simp only [Option.map_some'] at hsid'
          have hsideq : sid = s.id := by
            have := Option.some.injEq .. ▸ hsid'
            simpa using this.symm
          refine ⟨updatedShip s coord, ?_, by simpa [updatedShip] using hsideq.symm,
            by simp only [updatedShip, decide_eq_true_eq]; exact hfull,
            ?_, s, hsmem, hsideq.symm, ?_⟩
          · rw [hships', hupd, hl']
            exact List.mem_append_right _ (List.mem_cons_self ..)
          · intro c hc
            have hcellseq : (v1NewBoard tb coord).cells =
                sinkShipCells
                  (setStatus tb.cells coord.y coord.x
                    (markToStatus (v1Mark tb coord)))
                  (updatedShip s coord) := by
              show v1Cells2 tb coord = _
              unfold v1Cells2
              rw [hvs, if_pos (by simpa using hfull)]
            rw [hcellseq, sinkShipCells_eq_foldl]
            have hgrid1 : gridWF (setStatus tb.cells coord.y coord.x
                (markToStatus (v1Mark tb coord))) :=
              gridWF_setStatus _ _ _ _ hgrid
            have hboccs : ∀ c' ∈ occupiedCoords (updatedShip s coord),
                isCoordinateInBounds c' = true := fun c' hc' => hbnds s hsmem c' hc'
            exact foldl_sink_status _ _ hgrid1 hboccs c (hboccs c hc) (Or.inl hc)
          · rw [hsform]
            have : (s.hits ++ [coord]).length = s.hits.length + 1 := by simp
            simp only [decide_eq_false_iff_not]
            omega
        · rw [if_neg (by simpa using hfull)] at hsid'
          exact absurd hsid' (by simp)
      · intro sid s₀ s' hs₀ hs₀id hs₀f hs' hs'id hs'sunk
        rw [hships', hupd, hl'] at hs'
        rcases List.mem_append.mp hs' with hs' | hs'
        · have hs'pre : s' ∈ tb.placedShips := by
            rw [hsplit]
            exact List.mem_append_left _ hs'
          have heq : s₀ = s' :=
            List.inj_on_of_nodup_map hidnd hs₀ hs'pre (by rw [hs₀id, hs'id])
          rw [heq, hs'sunk] at hs₀f
          exact Bool.noConfusion hs₀f
        · rcases List.mem_cons.mp hs' with rfl | hs'
          · have hfull : decide ((s.hits ++ [coord]).length = s.definition.size) = true :=
              hs'sunk
            rw [hres, hvs, if_pos hfull]
            show Option.some (updatedShip s coord).id = Option.some sid
            rw [show (updatedShip s coord).id = sid from hs'id]
          · have hs'pre : s' ∈ tb.placedShips := by
              rw [hsplit]
              exact List.mem_append_right _ (List.mem_cons_of_mem _ hs')
            have heq : s₀ = s' :=
              List.inj_on_of_nodup_map hidnd hs₀ hs'pre (by rw [hs₀id, hs'id])
            rw [heq, hs'sunk] at hs₀f
            exact Bool.noConfusion hs₀f

/-! ## AI targeting (`src/utils/useAiAttackLogic.tsx`)

`Math.random()`-driven index choices are modelled by a `k : Nat`
parameter (`availableCells[Math.floor(Math.random() * len)]` becomes
`availableCells[k % len]?`; for an empty array the JS expression is
`undefined`, here `Option.none`). -/

/-- Row-major enumeration of the 10×10 grid, as every
`for (r …) for (c …)` loop walks it. -/
def scanCoords : List (Int × Int) :=
  (List.range 10).bind (fun r =>
    (List.range 10).map (fun c => (Int.ofNat r, Int.ofNat c)))

theorem mem_scanCoords (r c : Int) :
    (r, c) ∈ scanCoords ↔ 0 ≤ r ∧ r < 10 ∧ 0 ≤ c ∧ c < 10 := by
  unfold scanCoords
  constructor
  · intro h
    rcases List.mem_bind.mp h with ⟨a, ha, hmem⟩
    rcases List.mem_map.mp hmem with ⟨b, hb, heq⟩
    rw [List.mem_range] at ha hb
    obtain ⟨h1, h2⟩ := Prod.mk.injEq .. ▸ heq
    subst h1
    subst h2
    simp only [Int.ofNat_eq_coe]
    omega
  · rintro ⟨hr0, hr, hc0, hc⟩
    refine List.mem_bind.mpr ⟨r.toNat, List.mem_range.mpr (by omega), ?_⟩
    refine List.mem_map.mpr ⟨c.toNat, List.mem_range.mpr (by omega), ?_⟩
    simp only [Prod.mk.injEq, Int.ofNat_eq_coe]
    constructor <;> omega

/-- `status === 'empty' || status === 'ship'` — the cell has not been
fired upon. -/
def unresolvedAt (b : PlayerBoard) (r c : Int) : Bool :=
  decide ((cellAt b.cells r c).status = CellStatus.empty) ||
  decide ((cellAt b.cells r c).status = CellStatus.ship)

/-- The in-bounds-and-unresolved test applied to every candidate
coordinate before it may be returned. -/
def isOpenTarget (b : PlayerBoard) (q : Coordinate) : Bool :=
  decide (0 ≤ q.y) && decide (q.y < 10) && decide (0 ≤ q.x) && decide (q.x < 10) &&
  unresolvedAt b q.y q.x

/-- `getEasyAttack` (lines 17–29): uniform choice among unresolved
cells. -/
def getEasyAttack (b : PlayerBoard) (k : Nat) : Option Coordinate :=
  let availableCells :=
    (scanCoords.filter (fun rc => unresolvedAt b rc.1 rc.2)).map
      (fun rc => ({ x := rc.2, y := rc.1 } : Coordinate))
  availableCells[k % availableCells.length]?

/-- The four orthogonal neighbours, in the source's order
(up, down, left, right). -/
def neighborsOf (r c : Int) : List Coordinate :=
  [⟨c, r - 1⟩, ⟨c, r + 1⟩, ⟨c - 1, r⟩, ⟨c + 1, r⟩]

/-- The target-mode scan of `getNormalAttack` (lines 34–58): the first
`'hit'` cell with an unresolved in-bounds neighbour yields that
neighbour. -/
def normalScan (b : PlayerBoard) : List (Int × Int) → Option Coordinate
  | [] => Option.none
  | (r, c) :: rest =>
    if (cellAt b.cells r c).status = CellStatus.hit then
      match (neighborsOf r c).find? (fun q => isOpenTarget b q) with
      | Option.some q => Option.some q
      | Option.none => normalScan b rest
    else normalScan b rest

/-- `getNormalAttack` (lines 32–81): target scan, then the parity
(checkerboard) subset, then the easy fallback. -/
def getNormalAttack (b : PlayerBoard) (k : Nat) : Option Coordinate :=
  match normalScan b scanCoords with
  | Option.some q => Option.some q
  | Option.none =>
    let cb :=
      (scanCoords.filter (fun rc =>
          decide ((rc.1 + rc.2) % 2 = 0) && unresolvedAt b rc.1 rc.2)).map
        (fun rc => ({ x := rc.2, y := rc.1 } : Coordinate))
    if cb.length > 0 then cb[k % cb.length]? else getEasyAttack b k

/-- `Math.min(...)` over a non-empty list. -/
def listMinInt : List Int → Int
  | [] => 0
  | x :: xs => xs.foldl min x

/-- `Math.max(...)` over a non-empty list. -/
def listMaxInt : List Int → Int
  | [] => 0
  | x :: xs => xs.foldl max x

/-- Lines 110–152: with at least two recorded hits the axis is inferred
from the first two (`equal y ⇒ horizontal`, else `equal x ⇒ vertical`) and
the two run-extending cells are preferred, in min-before-max order; with
fewer than two hits, or a diagonal first pair, there is no preferred
target. -/
def axisTargets (hits : List Coordinate) : List Coordinate :=
  match hits with
  | h0 :: h1 :: _ =>
    if h0.y = h1.y then
      [⟨listMinInt (hits.map (·.x)) - 1, h0.y⟩,
       ⟨listMaxInt (hits.map (·.x)) + 1, h0.y⟩]
    else if h0.x = h1.x then
      [⟨h0.x, listMinInt (hits.map (·.y)) - 1⟩,
       ⟨h0.x, listMaxInt (hits.map (·.y)) + 1⟩]
    else []
  | _ => []

/-- One `'hit'` cell of the hard scan (lines 92–165): skip it if its ship
is already sunk; otherwise try the axis-extending targets, then the four
neighbours; `Option.none` means the outer loop continues. -/
def hardHitStep (b : PlayerBoard) (r c : Int) : Option Coordinate :=
  match b.placedShips.find?
      (fun s => decide ((cellAt b.cells r c).shipId = Option.some s.id)) with
  | Option.some placedShip =>
    if placedShip.isSunk then Option.none
    else
      match (axisTargets placedShip.hits).find? (fun q => isOpenTarget b q) with
      | Option.some q => Option.some q
      | Option.none => (neighborsOf r c).find? (fun q => isOpenTarget b q)
  | Option.none => (neighborsOf r c).find? (fun q => isOpenTarget b q)

/-- The target-mode scan of `getHardAttack` (lines 90–168). -/
def hardScan (b : PlayerBoard) : List (Int × Int) → Option Coordinate
  | [] => Option.none
  | (r, c) :: rest =>
    if (cellAt b.cells r c).status = CellStatus.hit then
      match hardHitStep b r c with
      | Option.some q => Option.some q
      | Option.none => hardScan b rest
    else hardScan b rest

/-- A horizontal run of `size` cells starting at `(r, c)` avoids every
attacked cell (lines 189–197). -/
def placementClearH (b : PlayerBoard) (r c : Int) (size : Nat) : Bool :=
  (List.range size).all (fun i =>
    !(decide ((cellAt b.cells r (c + Int.ofNat i)).status = CellStatus.hit) ||
      decide ((cellAt b.cells r (c + Int.ofNat i)).status = CellStatus.miss) ||
      decide ((cellAt b.cells r (c + Int.ofNat i)).status = CellStatus.sunk)))

/-- Vertical counterpart (lines 205–213). -/
def placementClearV (b : PlayerBoard) (r c : Int) (size : Nat) : Bool :=
  (List.range size).all (fun i =>
    !(decide ((cellAt b.cells (r + Int.ofNat i) c).status = CellStatus.hit) ||
      decide ((cellAt b.cells (r + Int.ofNat i) c).status = CellStatus.miss) ||
      decide ((cellAt b.cells (r + Int.ofNat i) c).status = CellStatus.sunk)))

/-- `probabilities[key]++`. -/
def bump (m : (Int × Int) → Int) (q : Int × Int) : (Int × Int) → Int :=
  fun p => if p = q then m q + 1 else m p

/-- Lines 172–222: the probability-density map — for every remaining ship
class, every fitting horizontal and vertical placement over unresolved
cells bumps the count of each covered coordinate. -/
def hardProbMap (b : PlayerBoard) (remaining : List ShipDefinition) :
    (Int × Int) → Int :=
  remaining.foldl
    (fun m shipDef =>
      scanCoords.foldl
        (fun m' rc =>
          let m1 :=
            if decide (rc.2 + Int.ofNat shipDef.size ≤ 10) &&
                placementClearH b rc.1 rc.2 shipDef.size then
              (List.range shipDef.size).foldl
                (fun mm i => bump mm (rc.1, rc.2 + Int.ofNat i)) m'
            else m'
          if decide (rc.1 + Int.ofNat shipDef.size ≤ 10) &&
              placementClearV b rc.1 rc.2 shipDef.size then
            (List.range shipDef.size).foldl
              (fun mm i => bump mm (rc.1 + Int.ofNat i, rc.2)) m1
          else m1)
        m)
    (fun _ => 0)

/-- Lines 224–245: running maximum / arg-max collection over unresolved
cells (`maxProbability` starts at `-1`). -/
def hardSelect (b : PlayerBoard) (m : (Int × Int) → Int) :
    List (Int × Int) → Int × List Coordinate → Int × List Coordinate
  | [], acc => acc
  | (r, c) :: rest, (mx, cands) =>
    if (cellAt b.cells r c).status = CellStatus.hit ∨
        (cellAt b.cells r c).status = CellStatus.miss ∨
        (cellAt b.cells r c).status = CellStatus.sunk then
      hardSelect b m rest (mx, cands)
    else if m (r, c) > mx then
      hardSelect b m rest (m (r, c), [⟨c, r⟩])
    else if m (r, c) = mx then
      hardSelect b m rest (mx, cands ++ [⟨c, r⟩])
    else
      hardSelect b m rest (mx, cands)

/-- `getHardAttack` (lines 84–255): target scan, then the
probability-density hunt, then the easy fallback. -/
def getHardAttack (b : PlayerBoard) (sunkShips : List PlacedShip)
    (remaining : List ShipDefinition) (k : Nat) : Option Coordinate :=
  match hardScan b scanCoords with
  | Option.some q => Option.some q
  | Option.none =>
    let sel := hardSelect b (hardProbMap b remaining) scanCoords (-1, [])
    if sel.2.length > 0 then sel.2[k % sel.2.length]?
    else getEasyAttack b k

/-- `getAiAttackCoordinate` (lines 258–273). -/
def getAiAttackCoordinate (difficulty : AIDifficulty) (b : PlayerBoard)
    (sunkShips : List PlacedShip) (remaining : List ShipDefinition)
    (k : Nat) : Option Coordinate :=
  match difficulty with
  | .easy => getEasyAttack b k
  | .normal => getNormalAttack b k
  | .hard => getHardAttack b sunkShips remaining k

/-! ## Claim C8: normal-difficulty target mode -/

theorem normalScan_unique_hit (b : PlayerBoard) (r₀ c₀ : Int)
    (hstat : (cellAt b.cells r₀ c₀).status = CellStatus.hit)
    (hfind : ((neighborsOf r₀ c₀).find? (fun q => isOpenTarget b q)).isSome = true) :
    ∀ L : List (Int × Int),
      (∀ rc ∈ L, (cellAt b.cells rc.1 rc.2).status = CellStatus.hit → rc = (r₀, c₀)) →
      (r₀, c₀) ∈ L →
      ∃ q, normalScan b L = Option.some q ∧ q ∈ neighborsOf r₀ c₀ ∧
        isOpenTarget b q = true := by
  intro L
  induction L with
  | nil =>
    intro _ hmem
    exact absurd hmem (by simp)
  | cons rc rest ih =>
    intro hone hmem
    obtain ⟨r, c⟩ := rc
    by_cases hrc : (r, c) = ((r₀, c₀) : Int × Int)
    · obtain ⟨h1, h2⟩ := Prod.mk.injEq .. ▸ hrc
      subst h1
      subst h2
      obtain ⟨q, hq⟩ := Option.isSome_iff_exists.mp hfind
      refine ⟨q, ?_, List.mem_of_find?_eq_some hq, List.find?_some hq⟩
      simp only [normalScan]
      rw [if_pos hstat, hq]
    · have hnot : ¬ (cellAt b.cells r c).status = CellStatus.hit :=
        fun hs => hrc (hone (r, c) (by simp) hs)
      have hmem' : (r₀, c₀) ∈ rest := by
        rcases List.mem_cons.mp hmem with h | h
        · exact absurd h.symm hrc
        · exact h
      have := ih (fun rc' h' => hone rc' (List.mem_cons_of_mem _ h')) hmem'
      simpa only [normalScan, if_neg hnot] using this

/-- Claim C8 (`getNormalAttack`, `useAiAttackLogic.tsx` lines 32–58): if
the opponent board's only `'hit'` cell sits at `(5,5)` (x = 5, y = 5) and
belongs to a not-yet-sunk ship, and at least one orthogonal neighbour of
`(5,5)` is in-bounds and unresolved, the normal AI returns such a
neighbour. -/
theorem getNormalAttack_adjacent_to_single_hit (b : PlayerBoard) (k : Nat)
    (hhit : ∀ r c : Int, 0 ≤ r → r < 10 → 0 ≤ c → c < 10 →
      ((cellAt b.cells r c).status = CellStatus.hit ↔ (r = 5 ∧ c = 5)))
    (hship : ∃ S ∈ b.placedShips,
      (cellAt b.cells 5 5).shipId = Option.some S.id ∧ S.isSunk = false)
    (hsome : ((neighborsOf 5 5).find? (fun q => isOpenTarget b q)).isSome = true) :
    ∃ q, getNormalAttack b k = Option.some q ∧ q ∈ neighborsOf 5 5 ∧
      isOpenTarget b q = true := by
  have hstat : (cellAt b.cells 5 5).status = CellStatus.hit :=
    (hhit 5 5 (by norm_num) (by norm_num) (by norm_num) (by norm_num)).mpr ⟨rfl, rfl⟩
  have hone : ∀ rc ∈ scanCoords,
      (cellAt b.cells rc.1 rc.2).status = CellStatus.hit → rc = ((5, 5) : Int × Int) := by
    intro rc hrc hs
    obtain ⟨r, c⟩ := rc
    obtain ⟨hr0, hr, hc0, hc⟩ := (mem_scanCoords r c).mp hrc
    have h55 := (hhit r c hr0 hr hc0 hc).mp hs
    rw [h55.1, h55.2]
  obtain ⟨q, hq, hqmem, hqopen⟩ := normalScan_unique_hit b 5 5 hstat hsome
    scanCoords hone ((mem_scanCoords 5 5).mpr (by norm_num))
  refine ⟨q, ?_, hqmem, hqopen⟩
  unfold getNormalAttack
  rw [hq]

/-! ## Claim C7: hard-difficulty directional inference -/

theorem hardScan_of_step (b : PlayerBoard) (t : Coordinate) :
    ∀ L : List (Int × Int),
      (∀ rc ∈ L, (cellAt b.cells rc.1 rc.2).status = CellStatus.hit →
        hardHitStep b rc.1 rc.2 = Option.some t) →
      (∃ rc ∈ L, (cellAt b.cells rc.1 rc.2).status = CellStatus.hit) →
      hardScan b L = Option.some t := by
  intro L
  induction L with
  | nil =>
    intro _ hex
    exact absurd hex (by simp)
  | cons rc rest ih =>
    intro hstep hex
    obtain ⟨r, c⟩ := rc
    by_cases hs : (cellAt b.cells r c).status = CellStatus.hit
    · simp only [hardScan]
      rw [if_pos hs, hstep (r, c) (by simp) hs]
    · have hex' : ∃ rc ∈ rest, (cellAt b.cells rc.1 rc.2).status = CellStatus.hit := by
        rcases hex with ⟨rc', hrc', hs'⟩
        rcases List.mem_cons.mp hrc' with h | h
        · rw [h] at hs'
          exact absurd hs' hs
        · exact ⟨rc', h, hs'⟩
      have := ih (fun rc' h' => hstep rc' (List.mem_cons_of_mem _ h')) hex'
      simpa only [hardScan, if_neg hs] using this

/-- Claim C7 (`getHardAttack`, `useAiAttackLogic.tsx` lines 110–152): when
every `'hit'` cell on the board belongs to the same unsunk ship `S` whose
recorded hits start with two cells in the same column (different rows),
the hard AI returns one of the two cells extending the hit run vertically
— `(x, minY - 1)` or `(x, maxY + 1)` — whenever at least one of them is
in-bounds and unresolved; symmetrically, a first pair sharing a row yields
one of the horizontal extensions `(minX - 1, y)` or `(maxX + 1, y)`. -/
theorem getHardAttack_extends_hit_run (b : PlayerBoard)
    (sunkShips : List PlacedShip) (remaining : List ShipDefinition) (k : Nat)
    (S : PlacedShip) (h0 h1 : Coordinate) (rest : List Coordinate)
    (hhits : S.hits = h0 :: h1 :: rest)
    (hfound : b.placedShips.find?
      (fun s => decide ((Option.some S.id : Option String) = Option.some s.id)) =
      Option.some S)
    (hallhits : ∀ r c : Int, (cellAt b.cells r c).status = CellStatus.hit →
      (cellAt b.cells r c).shipId = Option.some S.id)
    (hunsunk : S.isSunk = false)
    (hexists : ∃ r c : Int, 0 ≤ r ∧ r < 10 ∧ 0 ≤ c ∧ c < 10 ∧
      (cellAt b.cells r c).status = CellStatus.hit) :
    (h0.y ≠ h1.y → h0.x = h1.x →
      (isOpenTarget b ⟨h0.x, listMinInt (S.hits.map (·.y)) - 1⟩ = true ∨
       isOpenTarget b ⟨h0.x, listMaxInt (S.hits.map (·.y)) + 1⟩ = true) →
      ∃ q, getHardAttack b sunkShips remaining k = Option.some q ∧
        (q = ⟨h0.x, listMinInt (S.hits.map (·.y)) - 1⟩ ∨
         q = ⟨h0.x, listMaxInt (S.hits.map (·.y)) + 1⟩)) ∧
    (h0.y = h1.y →
      (isOpenTarget b ⟨listMinInt (S.hits.map (·.x)) - 1, h0.y⟩ = true ∨
       isOpenTarget b ⟨listMaxInt (S.hits.map (·.x)) + 1, h0.y⟩ = true) →
      ∃ q, getHardAttack b sunkShips remaining k = Option.some q ∧
        (q = ⟨listMinInt (S.hits.map (·.x)) - 1, h0.y⟩ ∨
         q = ⟨listMaxInt (S.hits.map (·.x)) + 1, h0.y⟩)) := by
  have key : ∀ t1 t2 : Coordinate, axisTargets S.hits = [t1, t2] →
      (isOpenTarget b t1 = true ∨ isOpenTarget b t2 = true) →
      ∃ q, getHardAttack b sunkShips remaining k = Option.some q ∧
        (q = t1 ∨ q = t2) := by
    intro t1 t2 hax hdisj
    have hfindt : ∃ t, (axisTargets S.hits).find? (fun q => isOpenTarget b q) =
        Option.some t ∧ (t = t1 ∨ t = t2) := by
      rw [hax]
      by_cases ht1 : isOpenTarget b t1 = true
      · exact ⟨t1, by simp [List.find?, ht1], Or.inl rfl⟩
      · have ht2 : isOpenTarget b t2 = true := hdisj.resolve_left ht1
        refine ⟨t2, ?_, Or.inr rfl⟩
        simp only [List.find?]
        rw [Bool.of_not_eq_true ht1, ht2]
    obtain ⟨t, hfindt, hor⟩ := hfindt
    have hstep : ∀ r c : Int, (cellAt b.cells r c).status = CellStatus.hit →
        hardHitStep b r c = Option.some t := by
      intro r c hs
      have hpred : (fun (s : PlacedShip) =>
            decide ((cellAt b.cells r c).shipId = Option.some s.id)) =
          (fun (s : PlacedShip) =>
            decide ((Option.some S.id : Option String) = Option.some s.id)) := by
        funext s
        rw [hallhits r c hs]
      unfold hardHitStep
      rw [hpred, hfound]
      simp only [hunsunk, Bool.false_eq_true, if_false]
      rw [hfindt]
    obtain ⟨r, c, hr0, hr, hc0, hc, hs⟩ := hexists
    have hscan : hardScan b scanCoords = Option.some t :=
      hardScan_of_step b t scanCoords
        (fun rc hrc hhit => hstep rc.1 rc.2 hhit)
        ⟨(r, c), (mem_scanCoords r c).mpr ⟨hr0, hr, hc0, hc⟩, hs⟩
    refine ⟨t, ?_, hor⟩
    unfold getHardAttack
    rw [hscan]
  constructor
  · intro hyy hxx hdisj
    refine key _ _ ?_ hdisj
    rw [hhits]
    simp only [axisTargets]
    rw [if_neg hyy, if_pos hxx, ← hhits]
  · intro hyy hdisj
    refine key _ _ ?_ hdisj
    rw [hhits]
    simp only [axisTargets]
    rw [if_pos hyy, ← hhits]

/-! ## Claim C6: hard-difficulty probability hunt -/

theorem hardScan_none (b : PlayerBoard) :
    ∀ L : List (Int × Int),
      (∀ rc ∈ L, (cellAt b.cells rc.1 rc.2).status = CellStatus.hit →
        hardHitStep b rc.1 rc.2 = Option.none) →
      hardScan b L = Option.none := by
  intro L
  induction L with
  | nil => intro _; rfl
  | cons rc rest ih =>
    intro hstep
    obtain ⟨r, c⟩ := rc
    by_cases hs : (cellAt b.cells r c).status = CellStatus.hit
    · simp only [hardScan]
      rw [if_pos hs, hstep (r, c) (by simp) hs]
      exact ih (fun rc' h' => hstep rc' (List.mem_cons_of_mem _ h'))
    · simp only [hardScan]
      rw [if_neg hs]
      exact ih (fun rc' h' => hstep rc' (List.mem_cons_of_mem _ h'))

theorem le_bump (m : (Int × Int) → Int) (q p : Int × Int) :
    m p ≤ bump m q p := by
  unfold bump
  by_cases h : p = q
  · rw [if_pos h, h]
    omega
  · rw [if_neg h]

theorem foldl_pointwise_le {α : Type} (f : ((Int × Int) → Int) → α → ((Int × Int) → Int))
    (hf : ∀ m a p, m p ≤ f m a p) :
    ∀ (l : List α) (m : (Int × Int) → Int) (p : Int × Int),
      m p ≤ (l.foldl f m) p := by
  intro l
  induction l with
  | nil => intro m p; exact le_refl _
  | cons a l ih =>
    intro m p
    exact le_trans (hf m a p) (ih (f m a) p)

theorem hardProbMap_nonneg (b : PlayerBoard) (remaining : List ShipDefinition)
    (p : Int × Int) : 0 ≤ hardProbMap b remaining p := by
  unfold hardProbMap
  refine foldl_pointwise_le _ ?_ remaining (fun _ => 0) p
  intro m shipDef p'
  refine foldl_pointwise_le _ ?_ scanCoords m p'
  intro m' rc p''
  have h1 : ∀ (mm : (Int × Int) → Int) (p3 : Int × Int),
      mm p3 ≤ ((List.range shipDef.size).foldl
        (fun mm i => bump mm (rc.1, rc.2 + Int.ofNat i)) mm) p3 :=
    fun mm p3 => foldl_pointwise_le _ (fun m a p => le_bump m _ p) _ mm p3
  have h2 : ∀ (mm : (Int × Int) → Int) (p3 : Int × Int),
      mm p3 ≤ ((List.range shipDef.size).foldl
        (fun mm i => bump mm (rc.1 + Int.ofNat i, rc.2)) mm) p3 :=
    fun mm p3 => foldl_pointwise_le _ (fun m a p => le_bump m _ p) _ mm p3
  split
  · split
    · exact le_trans (h1 m' p'') (h2 _ p'')
    · exact h2 m' p''
  · split
    · exact h1 m' p''
    · exact le_refl _

theorem hardSelect_spec (b : PlayerBoard) (m : (Int × Int) → Int) :
    ∀ (L : List (Int × Int)) (mx : Int) (cands : List Coordinate),
      (∀ q ∈ cands, unresolvedAt b q.y q.x = true ∧ m (q.y, q.x) = mx) →
      (∀ q ∈ (hardSelect b m L (mx, cands)).2,
        unresolvedAt b q.y q.x = true ∧
        m (q.y, q.x) = (hardSelect b m L (mx, cands)).1) ∧
      mx ≤ (hardSelect b m L (mx, cands)).1 ∧
      (∀ rc ∈ L, unresolvedAt b rc.1 rc.2 = true →
        m rc ≤ (hardSelect b m L (mx, cands)).1) ∧
      (∀ q ∈ (hardSelect b m L (mx, cands)).2,
        q ∈ cands ∨ ∃ rc ∈ L, q = (⟨rc.2, rc.1⟩ : Coordinate)) ∧
      ((cands ≠ [] ∨ ∃ rc ∈ L, unresolvedAt b rc.1 rc.2 = true ∧ mx < m rc) →
        (hardSelect b m L (mx, cands)).2 ≠ []) := by
  intro L
  induction L with
  | nil =>
    intro mx cands hinv
    refine ⟨fun q hq => ⟨(hinv q hq).1, (hinv q hq).2⟩, le_refl _, ?_, ?_, ?_⟩
    · intro rc hrc
      exact absurd hrc (by simp)
    · intro q hq
      exact Or.inl hq
    · intro hcond
      rcases hcond with h | ⟨rc, hrc, -⟩
      · exact h
      · exact absurd hrc (by simp)
  | cons rc rest ih =>
    intro mx cands hinv
    obtain ⟨r, c⟩ := rc
    by_cases hres : (cellAt b.cells r c).status = CellStatus.hit ∨
        (cellAt b.cells r c).status = CellStatus.miss ∨
        (cellAt b.cells r c).status = CellStatus.sunk
    · have hunres : unresolvedAt b r c = false := by
        unfold unresolvedAt
        rcases hres with h | h | h <;> rw [h] <;> rfl
      have heval : hardSelect b m ((r, c) :: rest) (mx, cands) =
          hardSelect b m rest (mx, cands) := by
        simp only [hardSelect]
        rw [if_pos hres]
      rw [heval]
      obtain ⟨i1, i2, i3, i4, i5⟩ := ih mx cands hinv
      refine ⟨i1, i2, ?_, ?_, ?_⟩
      · intro rc' hrc' hu
        rcases List.mem_cons.mp hrc' with h | h
        · rw [h] at hu
          rw [hu] at hunres
          exact Bool.noConfusion hunres
        · exact i3 rc' h hu
      · intro q hq
        rcases i4 q hq with h | ⟨rc', hrc', hh⟩
        · exact Or.inl h
        · exact Or.inr ⟨rc', List.mem_cons_of_mem _ hrc', hh⟩
      · intro hcond
        refine i5 ?_
        rcases hcond with h | ⟨rc', hrc', hu, hlt⟩
        · exact Or.inl h
        · rcases List.mem_cons.mp hrc' with h | h
          · rw [h] at hu
            rw [hu] at hunres
            exact Bool.noConfusion hunres
          · exact Or.inr ⟨rc', h, hu, hlt⟩
    · have hunres : unresolvedAt b r c = true := by
        unfold unresolvedAt
        push_neg at hres
        cases hst : (cellAt b.cells r c).status
        · rfl
        · rfl
        · exact absurd hst hres.1
        · exact absurd hst hres.2.1
        · exact absurd hst hres.2.2
      by_cases hgt : m (r, c) > mx
      · have heval : hardSelect b m ((r, c) :: rest) (mx, cands) =
            hardSelect b m rest (m (r, c), [⟨c, r⟩]) := by
          simp only [hardSelect]
          rw [if_neg hres, if_pos hgt]
        rw [heval]
        have hinv' : ∀ q ∈ ([⟨c, r⟩] : List Coordinate),
            unresolvedAt b q.y q.x = true ∧ m (q.y, q.x) = m (r, c) := by
          intro q hq
          have : q = (⟨c, r⟩ : Coordinate) := by simpa using hq
          rw [this]
          exact ⟨hunres, rfl⟩
        obtain ⟨i1, i2, i3, i4, i5⟩ := ih (m (r, c)) [⟨c, r⟩] hinv'
        refine ⟨i1, le_trans (le_of_lt hgt) i2, ?_, ?_, ?_⟩
        · intro rc' hrc' hu
          rcases List.mem_cons.mp hrc' with h | h
          · rw [h]
            exact i2
          · exact i3 rc' h hu
        · intro q hq
          rcases i4 q hq with h | ⟨rc', hrc', hh⟩
          · have : q = (⟨c, r⟩ : Coordinate) := by simpa using h
            exact Or.inr ⟨(r, c), by simp, this⟩
          · exact Or.inr ⟨rc', List.mem_cons_of_mem _ hrc', hh⟩
        · intro _
          exact i5 (Or.inl (by simp))
      · by_cases heq : m (r, c) = mx
        · have heval : hardSelect b m ((r, c) :: rest) (mx, cands) =
              hardSelect b m rest (mx, cands ++ [⟨c, r⟩]) := by
            simp only [hardSelect]
            rw [if_neg hres, if_neg (by omega), if_pos heq]
          rw [heval]
          have hinv' : ∀ q ∈ cands ++ [⟨c, r⟩],
              unresolvedAt b q.y q.x = true ∧ m (q.y, q.x) = mx := by
            intro q hq
            rcases List.mem_append.mp hq with h | h
            · exact hinv q h
            · have : q = (⟨c, r⟩ : Coordinate) := by simpa using h
              rw [this]
              exact ⟨hunres, heq⟩
          obtain ⟨i1, i2, i3, i4, i5⟩ := ih mx (cands ++ [⟨c, r⟩]) hinv'
          refine ⟨i1, i2, ?_, ?_, ?_⟩
          · intro rc' hrc' hu
            rcases List.mem_cons.mp hrc' with h | h
            · rw [h]
              rw [heq]
              exact i2
            · exact i3 rc' h hu
          · intro q hq
            rcases i4 q hq with h | ⟨rc', hrc', hh⟩
            · rcases List.mem_append.mp h with h' | h'
              · exact Or.inl h'
              · have : q = (⟨c, r⟩ : Coordinate) := by simpa using h'
                exact Or.inr ⟨(r, c), by simp, this⟩
            · exact Or.inr ⟨rc', List.mem_cons_of_mem _ hrc', hh⟩
          · intro _
            exact i5 (Or.inl (by simp))
        · have heval : hardSelect b m ((r, c) :: rest) (mx, cands) =
              hardSelect b m rest (mx, cands) := by
            simp only [hardSelect]
            rw [if_neg hres, if_neg (by omega), if_neg heq]
          rw [heval]
          obtain ⟨i1, i2, i3, i4, i5⟩ := ih mx cands hinv
          refine ⟨i1, i2, ?_, ?_, ?_⟩
          · intro rc' hrc' hu
            rcases List.mem_cons.mp hrc' with h | h
            · rw [h]
              omega
            · exact i3 rc' h hu
          · intro q hq
            rcases i4 q hq with h | ⟨rc', hrc', hh⟩
            · exact Or.inl h
            · exact Or.inr ⟨rc', List.mem_cons_of_mem _ hrc', hh⟩
          · intro hcond
            refine i5 ?_
            rcases hcond with h | ⟨rc', hrc', hu, hlt⟩
            · exact Or.inl h
            · rcases List.mem_cons.mp hrc' with h | h
              · rw [h] at hlt
                omega
              · exact Or.inr ⟨rc', h, hu, hlt⟩

/-- Claim C6 (`getHardAttack`, `useAiAttackLogic.tsx` lines 170–253): with
no exploitable hit (every `'hit'` cell belongs to an already sunk ship)
and at least one unresolved cell, the hard AI's probability hunt returns
an in-bounds, unresolved coordinate whose accumulated
placement-coverage count (`hardProbMap`, one increment per fitting
horizontal or vertical placement of each remaining ship class over
non-attacked cells) is maximal among all unresolved coordinates; in
particular it never returns an already-resolved coordinate. -/
theorem getHardAttack_hunts_max_probability (b : PlayerBoard)
    (sunkShips : List PlacedShip) (remaining : List ShipDefinition) (k : Nat)
    (hnoexploit : ∀ r c : Int, (cellAt b.cells r c).status = CellStatus.hit →
      ∃ S, b.placedShips.find?
          (fun s => decide ((cellAt b.cells r c).shipId = Option.some s.id)) =
        Option.some S ∧ S.isSunk = true)
    (hexists : ∃ r c : Int, 0 ≤ r ∧ r < 10 ∧ 0 ≤ c ∧ c < 10 ∧
      unresolvedAt b r c = true) :
    ∃ q, getHardAttack b sunkShips remaining k = Option.some q ∧
      0 ≤ q.x ∧ q.x < 10 ∧ 0 ≤ q.y ∧ q.y < 10 ∧
      unresolvedAt b q.y q.x = true ∧
      (∀ r c : Int, 0 ≤ r → r < 10 → 0 ≤ c → c < 10 →
        unresolvedAt b r c = true →
        hardProbMap b remaining (r, c) ≤ hardProbMap b remaining (q.y, q.x)) := by
  have hscan : hardScan b scanCoords = Option.none := by
    refine hardScan_none b scanCoords ?_
    intro rc hrc hhit
    obtain ⟨S, hfS, hsunk⟩ := hnoexploit rc.1 rc.2 hhit
    unfold hardHitStep
    simp [hfS, hsunk]
  obtain ⟨i1, -, i3, i4, i5⟩ := hardSelect_spec b (hardProbMap b remaining)
    scanCoords (-1) [] (by intro q hq; exact absurd hq (by simp))
  obtain ⟨r0, c0, hr00, hr0, hc00, hc0, hu0⟩ := hexists
  have hne : (hardSelect b (hardProbMap b remaining) scanCoords (-1, [])).2 ≠ [] := by
    refine i5 (Or.inr ⟨(r0, c0), (mem_scanCoords r0 c0).mpr ⟨hr00, hr0, hc00, hc0⟩,
      hu0, ?_⟩)
    have := hardProbMap_nonneg b remaining (r0, c0)
    omega
  have hlen : 0 <
      (hardSelect b (hardProbMap b remaining) scanCoords (-1, [])).2.length :=
    List.length_pos.mpr hne
  have hidx : k % (hardSelect b (hardProbMap b remaining) scanCoords (-1, [])).2.length <
      (hardSelect b (hardProbMap b remaining) scanCoords (-1, [])).2.length :=
    Nat.mod_lt _ hlen
  refine ⟨(hardSelect b (hardProbMap b remaining) scanCoords (-1, [])).2[
    k % (hardSelect b (hardProbMap b remaining) scanCoords (-1, [])).2.length], ?_, ?_⟩
  · unfold getHardAttack
    rw [hscan]
    simp only [hlen, if_pos, gt_iff_lt]
    exact List.getElem?_eq_getElem hidx
  · have hqmem := List.getElem_mem hidx
    obtain ⟨hqu, hqval⟩ := i1 _ hqmem
    have hbounds := i4 _ hqmem
    rcases hbounds with h | ⟨rc, hrc, hqeq⟩
    · exact absurd h (by simp)
    · obtain ⟨hr0', hr', hc0', hc'⟩ := (mem_scanCoords rc.1 rc.2).mp hrc
      have hx : ((hardSelect b (hardProbMap b remaining) scanCoords (-1, [])).2[
          k % (hardSelect b (hardProbMap b remaining) scanCoords (-1, [])).2.length]).x = rc.2 := by
        rw [hqeq]
      have hy : ((hardSelect b (hardProbMap b remaining) scanCoords (-1, [])).2[
          k % (hardSelect b (hardProbMap b remaining) scanCoords (-1, [])).2.length]).y = rc.1 := by
        rw [hqeq]
      refine ⟨by omega, by omega, by omega, by omega, hqu, ?_⟩
      intro r c hr0'' hr'' hc0'' hc'' hu
      have := i3 (r, c) ((mem_scanCoords r c).mpr ⟨hr0'', hr'', hc0'', hc''⟩) hu
      omega

/-! ## Claim C10: exhausted board -/

theorem resolved_of_not_unresolved (b : PlayerBoard) (r c : Int)
    (h : unresolvedAt b r c = false) :
    (cellAt b.cells r c).status = CellStatus.hit ∨
    (cellAt b.cells r c).status = CellStatus.miss ∨
    (cellAt b.cells r c).status = CellStatus.sunk := by
  unfold unresolvedAt at h
  cases hst : (cellAt b.cells r c).status
  · rw [hst] at h
    simp at h
  · rw [hst] at h
    simp at h
  · exact Or.inl rfl
  · exact Or.inr (Or.inl rfl)
  · exact Or.inr (Or.inr rfl)

theorem isOpenTarget_false_of_all_resolved (b : PlayerBoard)
    (hall : ∀ r c : Int, 0 ≤ r → r < 10 → 0 ≤ c → c < 10 →
      unresolvedAt b r c = false) (q : Coordinate) :
    isOpenTarget b q = false := by
  unfold isOpenTarget
  by_cases h1 : 0 ≤ q.y
  case neg => simp [h1]
  by_cases h2 : q.y < 10
  case neg => simp [h2]
  by_cases h3 : 0 ≤ q.x
  case neg => simp [h3]
  by_cases h4 : q.x < 10
  case neg => simp [h4]
  simp [hall q.y q.x h1 h2 h3 h4]

theorem normalScan_none_of_no_open (b : PlayerBoard)
    (hopen : ∀ q, isOpenTarget b q = false) :
    ∀ L, normalScan b L = Option.none := by
  intro L
  induction L with
  | nil => rfl
  | cons rc rest ih =>
    obtain ⟨r, c⟩ := rc
    have hf : (neighborsOf r c).find? (fun q => isOpenTarget b q) = Option.none :=
      List.find?_eq_none.mpr (fun x _ => by simp [hopen x])
    simp only [normalScan]
    split
    · rw [hf]
      exact ih
    · exact ih

theorem hardHitStep_none_of_no_open (b : PlayerBoard)
    (hopen : ∀ q, isOpenTarget b q = false) (r c : Int) :
    hardHitStep b r c = Option.none := by
  have hf : ∀ l : List Coordinate,
      l.find? (fun q => isOpenTarget b q) = Option.none :=
    fun l => List.find?_eq_none.mpr (fun x _ => by simp [hopen x])
  unfold hardHitStep
  cases hps : b.placedShips.find?
      (fun s => decide ((cellAt b.cells r c).shipId = Option.some s.id)) with
  | none => exact hf _
  | some ps =>
    by_cases hsunk : ps.isSunk = true
    · simp [hsunk]
    · simp [hsunk, hf]

theorem hardSelect_skip_all (b : PlayerBoard) (m : (Int × Int) → Int) :
    ∀ L : List (Int × Int), (∀ rc ∈ L, unresolvedAt b rc.1 rc.2 = false) →
      ∀ acc, hardSelect b m L acc = acc := by
  intro L
  induction L with
  | nil =>
    intro _ acc
    obtain ⟨mx, cands⟩ := acc
    rfl
  | cons rc rest ih =>
    intro hall acc
    obtain ⟨r, c⟩ := rc
    obtain ⟨mx, cands⟩ := acc
    have hres := resolved_of_not_unresolved b r c (hall (r, c) (by simp))
    simp only [hardSelect]
    rw [if_pos hres]
    exact ih (fun rc' h' => hall rc' (List.mem_cons_of_mem _ h')) (mx, cands)

theorem getEasyAttack_none_of_all_resolved (b : PlayerBoard) (k : Nat)
    (hall : ∀ r c : Int, 0 ≤ r → r < 10 → 0 ≤ c → c < 10 →
      unresolvedAt b r c = false) :
    getEasyAttack b k = Option.none := by
  unfold getEasyAttack
  have hfil : scanCoords.filter (fun rc => unresolvedAt b rc.1 rc.2) = [] := by
    rw [List.filter_eq_nil]
    intro rc hrc
    obtain ⟨h1, h2, h3, h4⟩ := (mem_scanCoords rc.1 rc.2).mp hrc
    simp [hall rc.1 rc.2 h1 h2 h3 h4]
  rw [hfil]
  rfl

/-- Claim C10 (`useAiAttackLogic.tsx` lines 17–29 and 258–273): when every
cell of the opponent board is already resolved, the easy choice indexes an
empty candidate array — `undefined` in JS, `Option.none` here — and the
normal and hard strategies fall through all of their stages to the same
empty-array access, so `getAiAttackCoordinate` yields no coordinate for
any difficulty. -/
theorem getAiAttackCoordinate_none_when_exhausted (b : PlayerBoard)
    (sunkShips : List PlacedShip) (remaining : List ShipDefinition) (k : Nat)
    (hall : ∀ r c : Int, 0 ≤ r → r < 10 → 0 ≤ c → c < 10 →
      unresolvedAt b r c = false) :
    getAiAttackCoordinate AIDifficulty.easy b sunkShips remaining k = Option.none ∧
    getAiAttackCoordinate AIDifficulty.normal b sunkShips remaining k = Option.none ∧
    getAiAttackCoordinate AIDifficulty.hard b sunkShips remaining k = Option.none := by
  have hopen := isOpenTarget_false_of_all_resolved b hall
  have heasy := getEasyAttack_none_of_all_resolved b k hall
  refine ⟨heasy, ?_, ?_⟩
  · show getNormalAttack b k = Option.none
    unfold getNormalAttack
    rw [normalScan_none_of_no_open b hopen scanCoords]
    have hfil : scanCoords.filter (fun rc =>
        decide ((rc.1 + rc.2) % 2 = 0) && unresolvedAt b rc.1 rc.2) = [] := by
      rw [List.filter_eq_nil]
      intro rc hrc
      obtain ⟨h1, h2, h3, h4⟩ := (mem_scanCoords rc.1 rc.2).mp hrc
      simp [hall rc.1 rc.2 h1 h2 h3 h4]
    rw [hfil]
    simpa using heasy
  · show getHardAttack b sunkShips remaining k = Option.none
    unfold getHardAttack
    rw [hardScan_none b scanCoords
      (fun rc _ _ => hardHitStep_none_of_no_open b hopen rc.1 rc.2)]
    rw [hardSelect_skip_all b (hardProbMap b remaining) scanCoords
      (fun rc hrc => by
        obtain ⟨h1, h2, h3, h4⟩ := (mem_scanCoords rc.1 rc.2).mp hrc
        exact hall rc.1 rc.2 h1 h2 h3 h4) (-1, [])]
    simpa using heasy

/-! ## Ship placement (`src/lib/boardUtils.tsx`) -/

/-- `isValidPlacement` (lines 95–141): every derived cell of the candidate
placement must be in bounds and collide with no cell of any already placed
ship (early `return false` loops become `all`). -/
def isValidPlacement (shipDef : ShipDefinition) (start : Coordinate)
    (orient : ShipOrientation) (existingPlacedShips : List PlacedShip) : Bool :=
  (List.range shipDef.size).all (fun i =>
    isCoordinateInBounds (shipCoord start orient i) &&
    existingPlacedShips.all (fun existingShip =>
      (List.range existingShip.definition.size).all (fun j =>
        !(decide ((shipCoord start orient i).x =
            (shipCoord existingShip.start existingShip.orientation j).x) &&
          decide ((shipCoord start orient i).y =
            (shipCoord existingShip.start existingShip.orientation j).y)))))

/-- The attempt loop of `placeShipRandomly` (lines 215–238), with the
random draws passed explicitly as a stream and the
`attempts < maxAttempts` budget as fuel. -/
def placeShipLoop (shipToPlaceDef : ShipDefinition)
    (currentPlacedShips : List PlacedShip)
    (draws : Nat → Coordinate × ShipOrientation) :
    Nat → Nat → Option PlacedShip
  | _, 0 => Option.none
  | attempt, fuel + 1 =>
    let startCoord := (draws attempt).1
    let orient := (draws attempt).2
    let tempShip : PlacedShip :=
      { id := shipToPlaceDef.id, definition := shipToPlaceDef,
        start := startCoord, orientation := orient, hits := [], isSunk := false }
    if isValidPlacement shipToPlaceDef startCoord orient currentPlacedShips then
      Option.some tempShip
    else
      placeShipLoop shipToPlaceDef currentPlacedShips draws (attempt + 1) fuel

/-- `placeShipRandomly` (lines 211–242): rejection sampling over 500
attempts, `null` (`Option.none`) on exhaustion. -/
def placeShipRandomly (shipToPlaceDef : ShipDefinition)
    (currentPlacedShips : List PlacedShip)
    (draws : Nat → Coordinate × ShipOrientation) : Option PlacedShip :=
  placeShipLoop shipToPlaceDef currentPlacedShips draws 0 500

theorem isValidPlacement_spec (shipDef : ShipDefinition) (start : Coordinate)
    (orient : ShipOrientation) (existing : List PlacedShip)
    (h : isValidPlacement shipDef start orient existing = true) :
    (∀ i < shipDef.size, isCoordinateInBounds (shipCoord start orient i) = true) ∧
    (∀ ex ∈ existing, ∀ i < shipDef.size, ∀ j < ex.definition.size,
      shipCoord start orient i ≠ shipCoord ex.start ex.orientation j) := by
  unfold isValidPlacement at h
  rw [List.all_eq_true] at h
  constructor
  · intro i hi
    have := h i (List.mem_range.mpr hi)
    exact (Bool.and_eq_true .. ▸ this).1
  · intro ex hex i hi j hj hne
    have hrow := (Bool.and_eq_true .. ▸ h i (List.mem_range.mpr hi)).2
    rw [List.all_eq_true] at hrow
    have hcol := hrow ex hex
    rw [List.all_eq_true] at hcol
    have := hcol j (List.mem_range.mpr hj)
    rw [hne] at this
    simp at this

/-- Claim C9 (`placeShipRandomly` + `isValidPlacement`,
`boardUtils.tsx` lines 95–141 and 211–242): whatever the random draws,
a returned placement carries the requested definition with empty hit
bookkeeping, all of its occupied coordinates inside the 10×10 board and
disjoint from the occupied coordinates of every already placed ship (and
on exhaustion of the 500-attempt budget the result is `null`, never an
invalid placement); the placed-ship list itself is never modified. -/
theorem placeShipRandomly_valid (shipToPlaceDef : ShipDefinition)
    (currentPlacedShips : List PlacedShip)
    (draws : Nat → Coordinate × ShipOrientation) (s : PlacedShip)
    (h : placeShipRandomly shipToPlaceDef currentPlacedShips draws = Option.some s) :
    s.definition = shipToPlaceDef ∧ s.id = shipToPlaceDef.id ∧
    s.hits = [] ∧ s.isSunk = false ∧
    (∀ c ∈ occupiedCoords s, isCoordinateInBounds c = true) ∧
    (∀ ex ∈ currentPlacedShips, ∀ c ∈ occupiedCoords s,
      ∀ c' ∈ occupiedCoords ex, c ≠ c') := by
  have key : ∀ fuel attempt,
      placeShipLoop shipToPlaceDef currentPlacedShips draws attempt fuel =
        Option.some s →
      s.definition = shipToPlaceDef ∧ s.id = shipToPlaceDef.id ∧
      s.hits = [] ∧ s.isSunk = false ∧
      isValidPlacement shipToPlaceDef s.start s.orientation currentPlacedShips = true := by
    intro fuel
    induction fuel with
    | zero =>
      intro attempt hloop
      exact absurd hloop (by simp [placeShipLoop])
    | succ fuel ih =>
      intro attempt hloop
      unfold placeShipLoop at hloop
      dsimp only [] at hloop
      split at hloop
      · rename_i hvalid
        obtain hs := Option.some.injEq .. ▸ hloop
        rw [← hs]
        exact ⟨rfl, rfl, rfl, rfl, hvalid⟩
      · exact ih (attempt + 1) hloop
  obtain ⟨hdef, hid, hhits, hsunk, hvalid⟩ := key 500 0 h
  obtain ⟨hbounds, hdisj⟩ := isValidPlacement_spec _ _ _ _ hvalid
  refine ⟨hdef, hid, hhits, hsunk, ?_, ?_⟩
  · intro c hc
    obtain ⟨i, hi, hci⟩ := List.mem_map.mp hc
    rw [List.mem_range] at hi
    rw [hdef] at hi
    rw [← hci]
    exact hbounds i hi
  · intro ex hex c hc c' hc'
    obtain ⟨i, hi, hci⟩ := List.mem_map.mp hc
    obtain ⟨j, hj, hcj⟩ := List.mem_map.mp hc'
    rw [List.mem_range] at hi hj
    rw [hdef] at hi
    rw [← hci, ← hcj]
    exact hdisj ex hex i hi j hj

/-! ## Claim C2 machinery: the second `handleAttack` variant -/

theorem lookupAttacked_cons_isSome (rest : List (Coordinate × AttackMark))
    (c : Coordinate) (mk : AttackMark) :
    (lookupAttacked ((c, mk) :: rest) c).isSome = true := by
  simp [lookupAttacked, List.find?]

/-- When the attacker's own attack record already holds the coordinate,
the second variant is a pure no-op that returns `alreadyAttacked`. -/
theorem handleAttackV2_already (st : GameState) (a t : Int) (coord : Coordinate)
    (tb ab : PlayerBoard)
    (htb : lookupBoard st.playerBoards t = Option.some tb)
    (hab : lookupBoard st.playerBoards a = Option.some ab)
    (hk : (lookupAttacked ab.attackedCells coord).isSome = true) :
    handleAttackV2 st a t coord =
      Option.some (st, { hit := false, sunkShipId := Option.none,
                         alreadyAttacked := true }) := by
  unfold handleAttackV2
  rw [htb, hab]
  simp [hk]

/-- Any successful call of the second variant leaves the attacked
coordinate recorded in the attacker's `attackedCells`, with both boards
still present. -/
theorem handleAttackV2_key_recorded (st : GameState) (a t : Int)
    (coord : Coordinate) (st' : GameState) (res : AttackResultV2)
    (tb ab : PlayerBoard)
    (htb : lookupBoard st.playerBoards t = Option.some tb)
    (hab : lookupBoard st.playerBoards a = Option.some ab)
    (hdiff : a ≠ t)
    (h : handleAttackV2 st a t coord = Option.some (st', res)) :
    ∃ ab' tb', lookupBoard st'.playerBoards a = Option.some ab' ∧
      lookupBoard st'.playerBoards t = Option.some tb' ∧
      (lookupAttacked ab'.attackedCells coord).isSome = true := by
  unfold handleAttackV2 at h
  rw [htb, hab] at h
  dsimp only [] at h
  by_cases hk : (lookupAttacked ab.attackedCells coord).isSome = true
  · rw [if_pos hk] at h
    simp only [Option.some.injEq, Prod.mk.injEq] at h
    obtain ⟨h1, -⟩ := h
    subst h1
    exact ⟨ab, tb, hab, htb, hk⟩
  · rw [if_neg hk] at h
    split at h
    all_goals (first | split at h | skip)
    all_goals (first | split at h | skip)
    all_goals (first | split at h | skip)
    all_goals (first | split at h | skip)
    all_goals
      simp only [Option.some.injEq, Prod.mk.injEq] at h
    all_goals
      obtain ⟨h1, -⟩ := h
    all_goals
      subst h1
    all_goals
      exact ⟨_, _, lookupBoard_setBoard_same ..,
        (lookupBoard_setBoard_other _ _ _ _ (fun hh => hdiff hh.symm)).trans
          (lookupBoard_setBoard_same ..),
        lookupAttacked_cons_isSome ..⟩

/-- Claim C2, amended part (second `handleAttack` variant,
`GameContext.tsx` lines 499–568): repeating the same
(attacker, target, coordinate) call is idempotent — the second call
returns the state of the first call unchanged (zero board diff) and flags
`alreadyAttacked: true`. -/
theorem handleAttackV2_repeat_idempotent (st : GameState) (a t : Int)
    (coord : Coordinate) (st₁ : GameState) (r₁ : AttackResultV2)
    (tb ab : PlayerBoard)
    (htb : lookupBoard st.playerBoards t = Option.some tb)
    (hab : lookupBoard st.playerBoards a = Option.some ab)
    (hdiff : a ≠ t)
    (h : handleAttackV2 st a t coord = Option.some (st₁, r₁)) :
    handleAttackV2 st₁ a t coord =
      Option.some (st₁, { hit := false, sunkShipId := Option.none,
                          alreadyAttacked := true }) := by
  obtain ⟨ab', tb', hab', htb', hk⟩ :=
    handleAttackV2_key_recorded st a t coord st₁ r₁ tb ab htb hab hdiff h
  exact handleAttackV2_already st₁ a t coord tb' ab' htb' hab' hk

/-! ## Concrete fixtures

Small closed game states used to witness the proved theorems at concrete
inputs and to exhibit the behaviour of the non-conforming `handleAttack`
and `advanceTurn` variants. -/

/-- Build a 10×10 grid from a cell-valued function of (row, column). -/
def mkGrid (f : Nat → Nat → Cell) : List (List Cell) :=
  (List.range 10).map (fun y => (List.range 10).map (fun x => f y x))

def destroyerDef : ShipDefinition :=
  { id := "destroyer-0", name := "destroyer", size := 2 }

def submarineDef : ShipDefinition :=
  { id := "submarine-0", name := "submarine", size := 3 }

/-- A freshly placed destroyer at (0,0)–(1,0). -/
def aliveShip : PlacedShip :=
  { id := "destroyer-0", definition := destroyerDef, start := ⟨0, 0⟩,
    orientation := ShipOrientation.horizontal, hits := [], isSunk := false }

def aliveCells : List (List Cell) :=
  mkGrid (fun y x =>
    if y = 0 ∧ x < 2 then
      { status := CellStatus.ship, shipId := Option.some "destroyer-0" }
    else {})

/-- A board whose only ship is the untouched destroyer. -/
def aliveBoard (pid : Int) : PlayerBoard :=
  { playerId := pid, cells := aliveCells, placedShips := [aliveShip],
    attackedCells := [] }

/-- The destroyer with one recorded hit at (0,0). -/
def nearSunkShip : PlacedShip :=
  { aliveShip with hits := [⟨0, 0⟩] }

def nearSunkCells : List (List Cell) :=
  mkGrid (fun y x =>
    if y = 0 ∧ x = 0 then
      { status := CellStatus.hit, shipId := Option.some "destroyer-0" }
    else if y = 0 ∧ x = 1 then
      { status := CellStatus.ship, shipId := Option.some "destroyer-0" }
    else {})

/-- A target board one shot away from losing its only ship. -/
def nearSunkBoard : PlayerBoard :=
  { playerId := 1, cells := nearSunkCells, placedShips := [nearSunkShip],
    attackedCells := [(⟨0, 0⟩, AttackMark.hit)] }

def humanP (i : Int) : PlayerSettings :=
  { id := i, name := "H", type := PlayerType.human }

def aiP (i : Int) : PlayerSettings :=
  { id := i, name := "A", type := PlayerType.ai,
    difficulty := Option.some AIDifficulty.easy }

/-- Two seats, both with an unsunk destroyer. -/
def twoAliveState : GameState :=
  { players := [humanP 0, aiP 1],
    playerBoards := [(0, aliveBoard 0), (1, aliveBoard 1)],
    phase := GamePhase.inGame, currentPlayerTurnId := 0,
    winnerId := Option.none }

/-- Three seats; seat 1 is one shot from elimination, seats 0 and 2 are
untouched. -/
def threeSeatState : GameState :=
  { players := [humanP 0, aiP 1, aiP 2],
    playerBoards := [(0, aliveBoard 0), (1, nearSunkBoard), (2, aliveBoard 2)],
    phase := GamePhase.inGame, currentPlayerTurnId := 0,
    winnerId := Option.none }

/-- Two seats; seat 1 is one shot from elimination. -/
def sinkState : GameState :=
  { players := [humanP 0, aiP 1],
    playerBoards := [(0, aliveBoard 0), (1, nearSunkBoard)],
    phase := GamePhase.inGame, currentPlayerTurnId := 0,
    winnerId := Option.none }

/-- The state after the third variant resolves the sinking shot on
`threeSeatState`. -/
def v3After : GameState :=
  ((handleAttackV3 threeSeatState 0 1 ⟨1, 0⟩).getD
    (threeSeatState, { hit := false })).1

/-- The state/result pair after seat 2 re-fires at seat 1's already-hit
cell under the second variant. -/
def v2ForeignPair : GameState × AttackResultV2 :=
  (handleAttackV2 threeSeatState 2 1 ⟨0, 0⟩).getD
    (threeSeatState, { hit := false })

def v2ForeignBoard : PlayerBoard :=
  (lookupBoard v2ForeignPair.1.playerBoards 1).getD (aliveBoard 1)

/-- The state/result pair of a first (fresh) shot under the second
variant. -/
def v2RepeatPair : GameState × AttackResultV2 :=
  (handleAttackV2 twoAliveState 0 1 ⟨5, 5⟩).getD
    (twoAliveState, { hit := false })

/-- The state/result pair of the sinking shot under the second variant. -/
def v2SinkPair : GameState × AttackResultV2 :=
  (handleAttackV2 sinkState 0 1 ⟨1, 0⟩).getD (sinkState, { hit := false })

def v2SinkBoard : PlayerBoard :=
  (lookupBoard v2SinkPair.1.playerBoards 1).getD (aliveBoard 1)

/-- The fully sunk destroyer. -/
def sunkShip : PlacedShip :=
  { aliveShip with hits := [⟨0, 0⟩, ⟨1, 0⟩], isSunk := true }

def subShip : PlacedShip :=
  { id := "submarine-0", definition := submarineDef, start := ⟨0, 2⟩,
    orientation := ShipOrientation.horizontal, hits := [], isSunk := false }

def mixedCells : List (List Cell) :=
  mkGrid (fun y x =>
    if y = 0 ∧ x < 2 then
      { status := CellStatus.sunk, shipId := Option.some "destroyer-0" }
    else if y = 2 ∧ x < 3 then
      { status := CellStatus.ship, shipId := Option.some "submarine-0" }
    else {})

/-- A board with a sunk destroyer and an untouched submarine. -/
def mixedBoard : PlayerBoard :=
  { playerId := 1, cells := mixedCells, placedShips := [sunkShip, subShip],
    attackedCells := [(⟨0, 0⟩, AttackMark.hit), (⟨1, 0⟩, AttackMark.hit)] }

def mixedState : GameState :=
  { players := [humanP 0, aiP 1],
    playerBoards := [(0, aliveBoard 0), (1, mixedBoard)],
    phase := GamePhase.inGame, currentPlayerTurnId := 0,
    winnerId := Option.none }

/-- The state after the third variant re-resolves the sunk cell (0,0). -/
def v3SunkAfter : GameState :=
  ((handleAttackV3 mixedState 0 1 ⟨0, 0⟩).getD
    (mixedState, { hit := false })).1

def v3SunkBoard : PlayerBoard :=
  (lookupBoard v3SunkAfter.playerBoards 1).getD (aliveBoard 1)

/-- A board whose only ship is fully sunk. -/
def sunkOnlyBoard : PlayerBoard :=
  { playerId := 1,
    cells := mkGrid (fun y x =>
      if y = 0 ∧ x < 2 then
        { status := CellStatus.sunk, shipId := Option.some "destroyer-0" }
      else {}),
    placedShips := [sunkShip],
    attackedCells := [(⟨0, 0⟩, AttackMark.hit), (⟨1, 0⟩, AttackMark.hit)] }

/-- Three seats; seat 1 (next in order after the current seat 0) is fully
eliminated while seat 2 is alive. -/
def turnState : GameState :=
  { players := [humanP 0, aiP 1, aiP 2],
    playerBoards := [(0, aliveBoard 0), (1, sunkOnlyBoard), (2, aliveBoard 2)],
    phase := GamePhase.inGame, currentPlayerTurnId := 0,
    winnerId := Option.none }

/-- An untouched, shipless opponent board (every cell unresolved). -/
def emptyBoard10 : PlayerBoard :=
  { playerId := 1, cells := mkGrid (fun _ _ => {}), placedShips := [],
    attackedCells := [] }

/-- A board every cell of which is already resolved. -/
def resolvedBoard : PlayerBoard :=
  { playerId := 1, cells := mkGrid (fun _ _ => { status := CellStatus.miss }),
    placedShips := [], attackedCells := [] }

/-- A submarine at (5,5)–(5,7) with hits recorded at (5,5) and (5,6). -/
def runShip : PlacedShip :=
  { id := "submarine-0", definition := submarineDef, start := ⟨5, 5⟩,
    orientation := ShipOrientation.vertical, hits := [⟨5, 5⟩, ⟨5, 6⟩],
    isSunk := false }

def runCells : List (List Cell) :=
  mkGrid (fun y x =>
    if (y = 5 ∨ y = 6) ∧ x = 5 then
      { status := CellStatus.hit, shipId := Option.some "submarine-0" }
    else if y = 7 ∧ x = 5 then
      { status := CellStatus.ship, shipId := Option.some "submarine-0" }
    else {})

def runBoard : PlayerBoard :=
  { playerId := 1, cells := runCells, placedShips := [runShip],
    attackedCells := [(⟨5, 5⟩, AttackMark.hit), (⟨5, 6⟩, AttackMark.hit)] }

/-- A submarine at (5,5)–(5,7) with a single hit at (5,5). -/
def singleHitShip : PlacedShip :=
  { id := "submarine-0", definition := submarineDef, start := ⟨5, 5⟩,
    orientation := ShipOrientation.vertical, hits := [⟨5, 5⟩],
    isSunk := false }

def singleHitCells : List (List Cell) :=
  mkGrid (fun y x =>
    if y = 5 ∧ x = 5 then
      { status := CellStatus.hit, shipId := Option.some "submarine-0" }
    else if (y = 6 ∨ y = 7) ∧ x = 5 then
      { status := CellStatus.ship, shipId := Option.some "submarine-0" }
    else {})

def singleHitBoard : PlayerBoard :=
  { playerId := 1, cells := singleHitCells, placedShips := [singleHitShip],
    attackedCells := [(⟨5, 5⟩, AttackMark.hit)] }

/-- A draw stream that always proposes (0,0), horizontal. -/
def drawsAt00 : Nat → Coordinate × ShipOrientation :=
  fun _ => (⟨0, 0⟩, ShipOrientation.horizontal)

/-- A cell read whose status is not `'empty'` read an actual row entry of
the grid (out-of-range reads give the default empty cell). -/
theorem cellAt_mem_of_status_ne_empty (cells : List (List Cell)) (y x : Int)
    (h : (cellAt cells y x).status ≠ CellStatus.empty) :
    ∃ row ∈ cells, cellAt cells y x ∈ row := by
  unfold cellAt at h ⊢
  by_cases hp : 0 ≤ y ∧ 0 ≤ x
  · rw [if_pos hp] at h ⊢
    cases hrow : cells[y.toNat]? with
    | none =>
      rw [hrow] at h
      exact absurd rfl h
    | some row =>
      rw [hrow] at h
      simp only [Option.getD_some] at h ⊢
      cases hc : row[x.toNat]? with
      | none =>
        rw [hc] at h
        exact absurd rfl h
      | some cell =>
        rw [hc] at h
        exact ⟨row, List.getElem?_mem hrow, by
          simp only [Option.getD_some]
          exact List.getElem?_mem hc⟩
  · rw [if_neg hp] at h
    exact absurd rfl h

/-- A property checked on the 10×10 grid positions (as naturals, where it
is decidable) holds at every in-bounds integer position. -/
theorem intGrid_of_natGrid (P : Int → Int → Prop)
    (h : ∀ rn : Nat, rn < 10 → ∀ cn : Nat, cn < 10 →
      P (Int.ofNat rn) (Int.ofNat cn)) :
    ∀ r c : Int, 0 ≤ r → r < 10 → 0 ≤ c → c < 10 → P r c := by
  intro r c hr0 hr hc0 hc
  have hre : r = Int.ofNat r.toNat := by
    simp only [Int.ofNat_eq_coe]
    omega
  have hce : c = Int.ofNat c.toNat := by
    simp only [Int.ofNat_eq_coe]
    omega
  rw [hre, hce]
  exact h r.toNat (by omega) c.toNat (by omega)

/-! ## Counterexamples and concrete bug exhibits -/

/-- Claim C1, counterexample on the cited third variant (`GameContext.tsx`
lines 870–886): seat 0 sinks seat 1's fleet while seat 2 still holds an
unsunk ship, yet the phase flips to game-over with seat 0 as winner — the
winner is set merely because the targeted seat is eliminated, with two
active seats still alive. -/
theorem handleAttackV3_premature_winner_counterexample :
    threeSeatState.phase = GamePhase.inGame ∧
    (handleAttackV3 threeSeatState 0 1 ⟨1, 0⟩).isSome = true ∧
    v3After.phase = GamePhase.gameOver ∧
    v3After.winnerId = Option.some 0 ∧
    2 ≤ (aliveSeats v3After).length := by decide

/-- Claim C2, counterexample on the cited second variant (`GameContext.tsx`
lines 499–511): the coordinate (0,0) of seat 1's board is already resolved
(status `'hit'`), but when a *different* attacker (seat 2) fires at it the
guard — which keys on the attacker's own `attackedCells` — does not
trigger: the result is not flagged `alreadyAttacked` and the resolved cell
is overwritten from `'hit'` to `'miss'`. -/
theorem handleAttackV2_foreign_repeat_counterexample :
    (cellAt nearSunkBoard.cells 0 0).status = CellStatus.hit ∧
    (handleAttackV2 threeSeatState 2 1 ⟨0, 0⟩).isSome = true ∧
    v2ForeignPair.2.alreadyAttacked = false ∧
    (cellAt v2ForeignBoard.cells 0 0).status = CellStatus.miss := by decide

/-- Claim C3 (`GameContext.tsx` lines 815–822 and 848–857): the cited
guard only checks for `'hit'` and `'miss'`, so a `'sunk'` cell is re-fired
upon and its status *reverts* to `'miss'` — the cell-status order is not
preserved by the third variant. -/
theorem handleAttackV3_sunk_cell_reverts :
    (cellAt mixedBoard.cells 0 0).status = CellStatus.sunk ∧
    (handleAttackV3 mixedState 0 1 ⟨0, 0⟩).isSome = true ∧
    (cellAt v3SunkBoard.cells 0 0).status = CellStatus.miss ∧
    v3SunkAfter.phase = GamePhase.inGame := by decide

/-- Claim C4, counterexample on the second variant (`GameContext.tsx`
lines 515–537): the sinking shot returns `sunkShipId` and the sunk-cell
loop runs, but line 536 afterwards overwrites the attacked cell back to
`'hit'`: the sunk ship's occupied cell (1,0) ends at status `'hit'`, not
`'sunk'`. -/
theorem handleAttackV2_sunk_cell_left_hit_counterexample :
    (handleAttackV2 sinkState 0 1 ⟨1, 0⟩).isSome = true ∧
    v2SinkPair.2.sunkShipId = Option.some "destroyer-0" ∧
    (∀ s ∈ v2SinkBoard.placedShips, s.isSunk = true) ∧
    (⟨1, 0⟩ : Coordinate) ∈ occupiedCoords nearSunkShip ∧
    (cellAt v2SinkBoard.cells 0 1).status = CellStatus.hit := by decide

/-- Claim C5 (`GameContext.tsx` lines 471–497 and 182–206): with seat 1
fully eliminated and seat 2 alive, the second `advanceTurn` variant hands
the turn to the eliminated seat 1 (it never checks fleets), and the first
variant's skip loop throws (`remainingPlayersCount` is referenced but
never declared), modelled as `Except.error`. -/
theorem advanceTurn_selects_eliminated_seat :
    lookupBoard turnState.playerBoards 1 = Option.some sunkOnlyBoard ∧
    checkAllShipsSunk sunkOnlyBoard = true ∧
    hasUnsunkShip (aliveBoard 2) = true ∧
    turnState.phase = GamePhase.inGame ∧
    (advanceTurnV2 turnState).currentPlayerTurnId = 1 ∧
    advanceTurnV1 turnState =
      Except.error "ReferenceError: remainingPlayersCount is not defined" :=
  ⟨by decide, by decide, by decide, rfl, by decide, rfl⟩

/-! ## Witnesses -/

/-- Witness for claim C1's theorem: a concrete fresh miss in a two-seat
game, with every hypothesis discharged at the concrete input. -/
theorem handleAttackV1_concludes_witness :
    twoAliveState.phase = GamePhase.inGame ∧
    lookupBoard twoAliveState.playerBoards 1 = Option.some (aliveBoard 1) ∧
    lookupAttacked (aliveBoard 1).attackedCells ⟨5, 5⟩ = Option.none ∧
    (((handleAttackV1 twoAliveState 0 1 ⟨5, 5⟩).1.phase = GamePhase.gameOver ↔
        (aliveSeats (handleAttackV1 twoAliveState 0 1 ⟨5, 5⟩).1).length ≤ 1) ∧
      (∀ p, aliveSeats (handleAttackV1 twoAliveState 0 1 ⟨5, 5⟩).1 = [p] →
        (handleAttackV1 twoAliveState 0 1 ⟨5, 5⟩).1.winnerId = Option.some p.id) ∧
      ((aliveSeats (handleAttackV1 twoAliveState 0 1 ⟨5, 5⟩).1).length = 0 →
        (handleAttackV1 twoAliveState 0 1 ⟨5, 5⟩).1.winnerId = Option.none) ∧
      (2 ≤ (aliveSeats (handleAttackV1 twoAliveState 0 1 ⟨5, 5⟩).1).length →
        (handleAttackV1 twoAliveState 0 1 ⟨5, 5⟩).1.phase = twoAliveState.phase ∧
        (handleAttackV1 twoAliveState 0 1 ⟨5, 5⟩).1.winnerId =
          twoAliveState.winnerId)) :=
  ⟨rfl, by decide, rfl,
    handleAttackV1_concludes_iff_at_most_one_alive twoAliveState 0 1 ⟨5, 5⟩
      ((handleAttackV1 twoAliveState 0 1 ⟨5, 5⟩).1)
      ((handleAttackV1 twoAliveState 0 1 ⟨5, 5⟩).2) (aliveBoard 1)
      rfl (by decide) (by decide) rfl rfl⟩

/-- Witness for claim C2's theorem: a fresh shot at (5,5) followed by the
guaranteed idempotent repeat. -/
theorem handleAttackV2_repeat_idempotent_witness :
    handleAttackV2 twoAliveState 0 1 ⟨5, 5⟩ =
      Option.some (v2RepeatPair.1, v2RepeatPair.2) ∧
    handleAttackV2 v2RepeatPair.1 0 1 ⟨5, 5⟩ =
      Option.some (v2RepeatPair.1,
        { hit := false, sunkShipId := Option.none, alreadyAttacked := true }) :=
  ⟨by decide,
    handleAttackV2_repeat_idempotent twoAliveState 0 1 ⟨5, 5⟩
      v2RepeatPair.1 v2RepeatPair.2 (aliveBoard 1) (aliveBoard 0)
      (by decide) (by decide) (by decide) (by decide)⟩

/-- Witness for claim C4's theorem: the sinking shot at (1,0) on the
well-formed near-sunk board, every hypothesis discharged at the concrete
input. -/
theorem handleAttackV1_sunk_bookkeeping_witness :
    boardWF nearSunkBoard ∧
    (lookupBoard (handleAttackV1 sinkState 0 1 ⟨1, 0⟩).1.playerBoards 1 =
        Option.some (v1NewBoard nearSunkBoard ⟨1, 0⟩) ∧
      (∀ s' ∈ (v1NewBoard nearSunkBoard ⟨1, 0⟩).placedShips,
        s'.isSunk = true ↔ (∀ c, c ∈ s'.hits ↔ c ∈ occupiedCoords s')) ∧
      (∀ sid, (handleAttackV1 sinkState 0 1 ⟨1, 0⟩).2.sunkShipId =
          Option.some sid →
        ∃ s' ∈ (v1NewBoard nearSunkBoard ⟨1, 0⟩).placedShips, s'.id = sid ∧
          s'.isSunk = true ∧
          (∀ c ∈ occupiedCoords s',
            (cellAt (v1NewBoard nearSunkBoard ⟨1, 0⟩).cells c.y c.x).status =
              CellStatus.sunk) ∧
          ∃ s₀ ∈ nearSunkBoard.placedShips, s₀.id = sid ∧ s₀.isSunk = false) ∧
      (∀ sid s₀ s', s₀ ∈ nearSunkBoard.placedShips → s₀.id = sid →
        s₀.isSunk = false →
        s' ∈ (v1NewBoard nearSunkBoard ⟨1, 0⟩).placedShips → s'.id = sid →
        s'.isSunk = true →
        (handleAttackV1 sinkState 0 1 ⟨1, 0⟩).2.sunkShipId =
          Option.some sid)) :=
  ⟨by decide,
    handleAttackV1_sunk_bookkeeping sinkState 0 1 ⟨1, 0⟩
      ((handleAttackV1 sinkState 0 1 ⟨1, 0⟩).1)
      ((handleAttackV1 sinkState 0 1 ⟨1, 0⟩).2) nearSunkBoard
      (by decide) (by decide) (by decide) rfl⟩

/-- Witness for claim C8's theorem: the single-hit board with the hit at
(5,5) on the unsunk submarine. -/
theorem getNormalAttack_adjacent_to_single_hit_witness :
    ∃ q, getNormalAttack singleHitBoard 0 = Option.some q ∧
      q ∈ neighborsOf 5 5 ∧ isOpenTarget singleHitBoard q = true :=
  getNormalAttack_adjacent_to_single_hit singleHitBoard 0
    (intGrid_of_natGrid _ (by decide)) (by decide) (by decide)

/-- Witness for claim C10's theorem: on the fully resolved board every
difficulty returns `undefined`. -/
theorem getAiAttackCoordinate_none_when_exhausted_witness :
    getAiAttackCoordinate AIDifficulty.easy resolvedBoard [] ALL_SHIPS 0 =
      Option.none ∧
    getAiAttackCoordinate AIDifficulty.normal resolvedBoard [] ALL_SHIPS 0 =
      Option.none ∧
    getAiAttackCoordinate AIDifficulty.hard resolvedBoard [] ALL_SHIPS 0 =
      Option.none :=
  getAiAttackCoordinate_none_when_exhausted resolvedBoard [] ALL_SHIPS 0
    (intGrid_of_natGrid _ (by decide))

/-- Witness for claim C9's theorem: the constant draw stream places the
destroyer at (0,0) on the first attempt. -/
theorem placeShipRandomly_valid_witness :
    placeShipRandomly destroyerDef [] drawsAt00 = Option.some aliveShip ∧
    (aliveShip.definition = destroyerDef ∧ aliveShip.id = destroyerDef.id ∧
      aliveShip.hits = [] ∧ aliveShip.isSunk = false ∧
      (∀ c ∈ occupiedCoords aliveShip, isCoordinateInBounds c = true) ∧
      (∀ ex ∈ ([] : List PlacedShip), ∀ c ∈ occupiedCoords aliveShip,
        ∀ c' ∈ occupiedCoords ex, c ≠ c')) :=
  ⟨by decide,
    placeShipRandomly_valid destroyerDef [] drawsAt00 aliveShip (by decide)⟩

/-- Witness for claim C6's theorem: on the untouched board (no exploitable
hit anywhere) the hard AI returns an unresolved coordinate of maximal
placement count. -/
theorem getHardAttack_hunts_max_probability_witness :
    ∃ q, getHardAttack emptyBoard10 [] ALL_SHIPS 0 = Option.some q ∧
      0 ≤ q.x ∧ q.x < 10 ∧ 0 ≤ q.y ∧ q.y < 10 ∧
      unresolvedAt emptyBoard10 q.y q.x = true ∧
      (∀ r c : Int, 0 ≤ r → r < 10 → 0 ≤ c → c < 10 →
        unresolvedAt emptyBoard10 r c = true →
        hardProbMap emptyBoard10 ALL_SHIPS (r, c) ≤
          hardProbMap emptyBoard10 ALL_SHIPS (q.y, q.x)) :=
  getHardAttack_hunts_max_probability emptyBoard10 [] ALL_SHIPS 0
    (fun r c hhit => by
      obtain ⟨row, hrow, hcell⟩ :=
        cellAt_mem_of_status_ne_empty emptyBoard10.cells r c
          (by rw [hhit]; decide)
      exact absurd hhit
        ((by decide : ∀ row ∈ emptyBoard10.cells, ∀ cell ∈ row,
            cell.status ≠ CellStatus.hit) row hrow _ hcell))
    ⟨0, 0, by decide⟩

/-- Witness for claim C7's theorem: two vertical hits at (5,5) and (5,6)
on the unsunk submarine make the hard AI extend the run to (5,4) or
(5,7). -/
theorem getHardAttack_extends_hit_run_witness :
    ∃ q, getHardAttack runBoard [] ALL_SHIPS 0 = Option.some q ∧
      (q = ⟨(⟨5, 5⟩ : Coordinate).x,
            listMinInt (runShip.hits.map (·.y)) - 1⟩ ∨
       q = ⟨(⟨5, 5⟩ : Coordinate).x,
            listMaxInt (runShip.hits.map (·.y)) + 1⟩) :=
  (getHardAttack_extends_hit_run runBoard [] ALL_SHIPS 0 runShip
    ⟨5, 5⟩ ⟨5, 6⟩ [] rfl (by decide)
    (fun r c hhit => by
      obtain ⟨row, hrow, hcell⟩ :=
        cellAt_mem_of_status_ne_empty runBoard.cells r c
          (by rw [hhit]; decide)
      exact (by decide : ∀ row ∈ runBoard.cells, ∀ cell ∈ row,
          cell.status = CellStatus.hit →
          cell.shipId = Option.some "submarine-0") row hrow _ hcell hhit)
    rfl ⟨5, 5, by decide⟩).1 (by decide) rfl (by decide)
